import Mathlib

/-!
Verification of the core of the seer symbolic evaluator: a shallow embedding of
the value model, the binary-operator semantics (operator.rs), the intrinsic
dispatch (terminator/intrinsic.rs), the frame machinery (eval_context.rs) and
the branching executor (executor.rs), together with theorems settling the
specified properties.  Components whose source is not in the repository
snapshot (memory.rs, value.rs, lvalue.rs, step.rs, constraints.rs) are
modelled from the specification; each such definition is marked in its doc
comment.
-/

set_option linter.unusedVariables false

namespace Seer

/-- A symbolic byte: either a concrete 8-bit value or a named unknown
    identified by a process-wide id. -/
inductive SByte where
  | concrete (b : Nat)
  | abstractSb (id : Nat)
deriving DecidableEq

/-- A pointer offset: a concrete u64 or a symbolic 8-byte sequence. -/
inductive PointerOffset where
  | concrete (n : Nat)
  | abstractOff (s : List SByte)
deriving DecidableEq

/-- A pointer: allocation id plus offset. -/
structure Pointer where
  alloc_id : Nat
  offset : PointerOffset
deriving DecidableEq

/-- The four-way tagged primitive scalar of the value model. -/
inductive PrimVal where
  | bytes (n : Nat)
  | ptr (p : Pointer)
  | undef
  | abstractPv (s : List SByte)
deriving DecidableEq

/-- Register-level values (value.rs data model, given in the spec). -/
inductive Value where
  | byVal (v : PrimVal)
  | byValPair (a b : PrimVal)
  | byRef (p : Pointer)
deriving DecidableEq

/-- Error kinds of error.rs (payloads elided; no theorem inspects them). -/
inductive EvalError where
  | FunctionPointerTyMismatch
  | NoMirFor
  | DanglingPointerDeref
  | InvalidMemoryAccess
  | InvalidFunctionPointer
  | InvalidBool
  | InvalidDiscriminant
  | PointerOutOfBounds
  | ReadPointerAsBytes
  | InvalidPointerMath
  | ReadUndefBytes
  | InvalidBoolOp
  | Unimplemented
  | DerefFunctionPointer
  | ExecuteMemory
  | ArrayIndexOutOfBounds
  | MathError
  | InvalidChar
  | OutOfMemory
  | ExecutionTimeLimitReached
  | StackFrameLimitReached
  | AlignmentCheckFailed
  | CalledClosureAsFunction
  | VtableForArgumentlessMethod
  | ModifiedConstantMemory
  | AssumptionNotHeld
  | InlineAsm
  | TypeNotPrimitive
  | ReallocatedStaticMemory
  | DeallocatedStaticMemory
  | LayoutError
  | Unreachable
  | PanicError
deriving DecidableEq

/-- Result of a fallible interpreter operation.  `rustPanic` models a Rust
    panic (a bug! / unimplemented! / assert failure in the source), which is a
    distinct outcome from returning an `EvalError`. -/
inductive RRes (α : Type) where
  | ok (a : α)
  | err (e : EvalError)
  | rustPanic
deriving DecidableEq

def RRes.bind {α β : Type} : RRes α → (α → RRes β) → RRes β
  | .ok a, f => f a
  | .err e, _ => .err e
  | .rustPanic, _ => .rustPanic

def RRes.map {α β : Type} (f : α → β) : RRes α → RRes β
  | .ok a => .ok (f a)
  | .err e => .err e
  | .rustPanic => .rustPanic

instance : Monad RRes where
  pure := RRes.ok
  bind := RRes.bind
  map := RRes.map

def RRes.isOk {α : Type} : RRes α → Bool
  | .ok _ => true
  | _ => false

/-- Kinds of primitive values (value.rs is not in the snapshot; the kind
    vocabulary is fixed by its uses in operator.rs and eval_context.rs).
    Char and Bool carry a K suffix to avoid clashes with the Lean core types. -/
inductive PrimValKind where
  | I8 | I16 | I32 | I64 | I128
  | U8 | U16 | U32 | U64 | U128
  | F32 | F64 | FnPtr | Ptr | CharK | BoolK
deriving DecidableEq

def PrimValKind.is_signed_int : PrimValKind → Bool
  | .I8 | .I16 | .I32 | .I64 | .I128 => true
  | _ => false

def PrimValKind.is_int : PrimValKind → Bool
  | .I8 | .I16 | .I32 | .I64 | .I128 | .U8 | .U16 | .U32 | .U64 | .U128 => true
  | _ => false

def PrimValKind.is_ptr : PrimValKind → Bool
  | .Ptr | .FnPtr => true
  | _ => false

def PrimValKind.num_bytes : PrimValKind → Nat
  | .I8 | .U8 | .BoolK => 1
  | .I16 | .U16 => 2
  | .I32 | .U32 | .F32 | .CharK => 4
  | .I64 | .U64 | .F64 | .FnPtr | .Ptr => 8
  | .I128 | .U128 => 16

def PrimValKind.num_bits (k : PrimValKind) : Nat := 8 * k.num_bytes

/-- from_int_size; the source panics on other sizes (unreachable here). -/
def PrimValKind.from_int_size : Nat → PrimValKind
  | 1 => .I8
  | 2 => .I16
  | 4 => .I32
  | 8 => .I64
  | 16 => .I128
  | _ => .I64

/-- from_uint_size; the source panics on other sizes (unreachable here). -/
def PrimValKind.from_uint_size : Nat → PrimValKind
  | 1 => .U8
  | 2 => .U16
  | 4 => .U32
  | 8 => .U64
  | 16 => .U128
  | _ => .U64

/-- The target pointer size in bytes (the data layout of the host target). -/
def pointer_size : Nat := 8

/-- The distinguished numeric-literal allocation id: a pointer into it stands
    for a plain integer (spec normalisation rule for the primitive value). -/
def literal_alloc_id : Nat := 0

def PointerOffset.is_concrete : PointerOffset → Bool
  | .concrete _ => true
  | _ => false

def Pointer.is_concrete (p : Pointer) : Bool := p.offset.is_concrete

/-- Modelled from the spec: a pointer whose allocation is the numeric-literal
    allocation converts to a plain integer (memory.rs is not in the snapshot). -/
def Pointer.to_int (p : Pointer) : Option Nat :=
  if p.alloc_id = literal_alloc_id then
    match p.offset with
    | .concrete n => some n
    | _ => none
  else none

def PrimVal.from_bool (b : Bool) : PrimVal := .bytes (if b then 1 else 0)

def PrimVal.from_u128 (n : Nat) : PrimVal := .bytes n

def PrimVal.is_concrete : PrimVal → Bool
  | .bytes _ => true
  | .ptr p => p.is_concrete
  | _ => false

/-- Modelled from the spec: bit-level access to a non-concrete value fails
    with the ReadUndef / ReadPointerAsBytes family (value.rs not in snapshot). -/
def PrimVal.to_bytes : PrimVal → RRes Nat
  | .bytes n => .ok n
  | .ptr _ => .err .ReadPointerAsBytes
  | .undef => .err .ReadUndefBytes
  | .abstractPv _ => .err .ReadUndefBytes

/-- Modelled from the spec: converting a primitive to a pointer; a plain
    integer becomes a pointer into the numeric-literal allocation. -/
def PrimVal.to_ptr : PrimVal → RRes Pointer
  | .bytes n => .ok ⟨literal_alloc_id, .concrete n⟩
  | .ptr p => .ok p
  | .undef => .err .ReadUndefBytes
  | .abstractPv _ => .err .ReadUndefBytes

/-- FIXME-hack normalisation of operator.rs:150: a Pointer that can be read
    as an integer collapses to Bytes before arithmetic. -/
def normalize_primval (v : PrimVal) : PrimVal :=
  match v with
  | .ptr p =>
    match p.to_int with
    | some n => .bytes n
    | none => .ptr p
  | v => v

/-- The MIR binary operators consumed by operator.rs. -/
inductive BinOp where
  | Add | Sub | Mul | Div | Rem
  | BitXor | BitAnd | BitOr
  | Shl | Shr
  | Eq | Lt | Le | Ne | Ge | Gt
  | Offset
deriving DecidableEq

/-- The slice of the guest type vocabulary used by the embedded functions.
    wrapTy is a single-field (newtype) struct with univariant layout. -/
inductive Ty where
  | boolTy | charTy
  | i8Ty | i16Ty | i32Ty | i64Ty | i128Ty | isizeTy
  | u8Ty | u16Ty | u32Ty | u64Ty | u128Ty | usizeTy
  | f32Ty | f64Ty
  | fnPtrTy
  | refTy (t : Ty) | rawPtrTy (t : Ty)
  | sliceTy (t : Ty) | strTy
  | unitTy
  | tuple2Ty (a b : Ty)
  | wrapTy (t : Ty)
  | arrayTy (t : Ty) (n : Nat)
deriving DecidableEq

def Ty.type_is_sized : Ty → Bool
  | .sliceTy _ | .strTy => false
  | _ => true

/-- ty_to_primval_kind (eval_context.rs:1111): single-field structs recurse
    into their field; non-primitive types fail TypeNotPrimitive. -/
def ty_to_primval_kind : Ty → RRes PrimValKind
  | .boolTy => .ok .BoolK
  | .charTy => .ok .CharK
  | .i8Ty => .ok .I8
  | .i16Ty => .ok .I16
  | .i32Ty => .ok .I32
  | .i64Ty => .ok .I64
  | .i128Ty => .ok .I128
  | .isizeTy => .ok (.from_int_size pointer_size)
  | .u8Ty => .ok .U8
  | .u16Ty => .ok .U16
  | .u32Ty => .ok .U32
  | .u64Ty => .ok .U64
  | .u128Ty => .ok .U128
  | .usizeTy => .ok (.from_uint_size pointer_size)
  | .f32Ty => .ok .F32
  | .f64Ty => .ok .F64
  | .fnPtrTy => .ok .FnPtr
  | .refTy t => if t.type_is_sized then .ok .Ptr else .err .TypeNotPrimitive
  | .rawPtrTy t => if t.type_is_sized then .ok .Ptr else .err .TypeNotPrimitive
  | .wrapTy t => ty_to_primval_kind t
  | _ => .err .TypeNotPrimitive

/-- Sizes as reported by the external type/layout adapter, at the usual
    x86-64 data layout for the primitives (padding of aggregates is not
    modelled; only the sizes the claims exercise matter). -/
def Ty.type_size : Ty → Option Nat
  | .boolTy => some 1
  | .charTy => some 4
  | .i8Ty | .u8Ty => some 1
  | .i16Ty | .u16Ty => some 2
  | .i32Ty | .u32Ty | .f32Ty => some 4
  | .i64Ty | .u64Ty | .f64Ty | .isizeTy | .usizeTy | .fnPtrTy => some 8
  | .i128Ty | .u128Ty => some 16
  | .refTy t | .rawPtrTy t => if t.type_is_sized then some 8 else some 16
  | .sliceTy _ | .strTy => none
  | .unitTy => some 0
  | .tuple2Ty a b =>
    match a.type_size, b.type_size with
    | some x, some y => some (x + y)
    | _, _ => none
  | .wrapTy t => t.type_size
  | .arrayTy t n =>
    match t.type_size with
    | some x => some (n * x)
    | none => none

/-- builtin_deref: the pointee type of a reference / raw pointer. -/
def Ty.builtin_deref : Ty → Option Ty
  | .refTy t => some t
  | .rawPtrTy t => some t
  | _ => none

/-- get_field_count (eval_context.rs:832), via the layout of the type:
    univariant structs and fat pointers only. -/
def Ty.get_field_count : Ty → RRes Nat
  | .tuple2Ty _ _ => .ok 2
  | .wrapTy _ => .ok 1
  | .refTy t | .rawPtrTy t => if t.type_is_sized then .err .Unimplemented else .ok 2
  | _ => .err .Unimplemented

/-- get_field_offset (eval_context.rs:810), via the layout of the type. -/
def Ty.get_field_offset (ty : Ty) (i : Nat) : RRes Nat :=
  match ty with
  | .tuple2Ty a _ =>
    if i = 0 then .ok 0
    else if i = 1 then .ok ((a.type_size).getD 0)
    else .rustPanic
  | .wrapTy _ => if i = 0 then .ok 0 else .rustPanic
  | .refTy t | .rawPtrTy t =>
    if t.type_is_sized then .err .Unimplemented else .ok (i * pointer_size)
  | _ => .err .Unimplemented

/-- get_field_ty (eval_context.rs:795). -/
def Ty.get_field_ty (ty : Ty) (i : Nat) : RRes Ty :=
  match ty with
  | .tuple2Ty a b => if i = 0 then .ok a else if i = 1 then .ok b else .rustPanic
  | .wrapTy t => if i = 0 then .ok t else .rustPanic
  | .refTy t | .rawPtrTy t =>
    if t.type_is_sized then .err .Unimplemented
    else if i = 0 then .ok (.rawPtrTy .u8Ty)
    else if i = 1 then .ok .usizeTy
    else .rustPanic
  | _ => .err .Unimplemented

/-! Machine integer arithmetic at a given width, following the Rust cast and
    overflowing-operation semantics used by the int_arithmetic and int_shift
    macros of operator.rs. -/

/-- Truncation to the low `bits` bits (the `as uN` cast of a wider value). -/
def toUnsigned (bits : Nat) (x : Nat) : Nat := x % 2 ^ bits

/-- Two's-complement reading of the low `bits` bits (the `as iN` cast). -/
def toSigned (bits : Nat) (x : Nat) : Int :=
  let m := x % 2 ^ bits
  if m < 2 ^ (bits - 1) then (m : Int) else (m : Int) - (2 ^ bits : Nat)

/-- Two's-complement wrap of an exact integer result into `bits` bits. -/
def signedWrap (bits : Nat) (i : Int) : Int :=
  (i + 2 ^ (bits - 1)).emod (2 ^ bits) - 2 ^ (bits - 1)

/-- The `as u128` cast of an iN value: two's complement in 128 bits (this
    sign-extends negative values, per the Rust integer cast rules). -/
def u128OfInt (i : Int) : Nat := (i.emod (2 ^ 128)).toNat

/-- One overflowing signed operation: wrap and flag, as Rust overflowing_*. -/
def overflowing_signed (bits : Nat) (f : Int → Int → Int) (l r : Nat) : PrimVal × Bool :=
  let exact := f (toSigned bits l) (toSigned bits r)
  let w := signedWrap bits exact
  (.bytes (u128OfInt w), decide (w ≠ exact))

/-- One overflowing unsigned operation: wrap and flag, as Rust overflowing_*. -/
def overflowing_unsigned (bits : Nat) (f : Int → Int → Int) (l r : Nat) : PrimVal × Bool :=
  let exact := f (toUnsigned bits l) (toUnsigned bits r)
  let w := exact.emod (2 ^ bits)
  (.bytes w.toNat, decide (w ≠ exact))

/-- int_arithmetic macro (operator.rs:72): cast both operands to the kind,
    run the overflowing operation, store the result cast back to u128.
    Non-integer kinds hit the bug! arm. -/
def int_arithmetic (k : PrimValKind) (op : BinOp) (l r : Nat) : RRes (PrimVal × Bool) :=
  if k.is_int then
    match op with
    | .Add =>
      .ok (if k.is_signed_int then overflowing_signed k.num_bits (fun a b => a + b) l r
           else overflowing_unsigned k.num_bits (fun a b => a + b) l r)
    | .Sub =>
      .ok (if k.is_signed_int then overflowing_signed k.num_bits (fun a b => a - b) l r
           else overflowing_unsigned k.num_bits (fun a b => a - b) l r)
    | .Mul =>
      .ok (if k.is_signed_int then overflowing_signed k.num_bits (fun a b => a * b) l r
           else overflowing_unsigned k.num_bits (fun a b => a * b) l r)
    | .Div =>
      if toUnsigned k.num_bits r = 0 then .rustPanic
      else .ok (if k.is_signed_int then overflowing_signed k.num_bits Int.tdiv l r
                else overflowing_unsigned k.num_bits Int.tdiv l r)
    | .Rem =>
      if toUnsigned k.num_bits r = 0 then .rustPanic
      else if k.is_signed_int then
        let a := toSigned k.num_bits l
        let b := toSigned k.num_bits r
        .ok (.bytes (u128OfInt (a.tmod b)),
             decide (a = -(2 ^ (k.num_bits - 1) : Nat) ∧ b = -1))
      else .ok (overflowing_unsigned k.num_bits Int.tmod l r)
    | _ => .rustPanic
  else .rustPanic

/-- int_shift macro (operator.rs:92): the shift amount is `r as u32`; Rust
    overflowing_shl / overflowing_shr mask the amount by the width and flag
    overflow when the amount was at least the width. -/
def int_shift (k : PrimValKind) (left_shift : Bool) (l : Nat) (r32 : Nat) : RRes (PrimVal × Bool) :=
  if k.is_int then
    let bits := k.num_bits
    let sh := r32 % bits
    let flag := decide (bits ≤ r32)
    if left_shift then
      let pat := (toUnsigned bits l) * 2 ^ sh % 2 ^ bits
      .ok (.bytes (if k.is_signed_int then u128OfInt (toSigned bits pat) else pat), flag)
    else
      if k.is_signed_int then
        .ok (.bytes (u128OfInt ((toSigned bits l).ediv (2 ^ sh))), flag)
      else
        .ok (.bytes (toUnsigned bits l / 2 ^ sh), flag)
  else .rustPanic

/-- One recorded symbolic binary-operation definition in the constraint layer. -/
structure BinRecord where
  op : BinOp
  left : PrimVal
  right : PrimVal
  kind : PrimValKind
  out : List SByte
deriving DecidableEq

/-- The constraint store (constraints.rs is not in the snapshot; modelled
    from the spec: an ordered list of path constraints plus the symbolic
    operation definitions, with a fresh-id counter). -/
structure CStore where
  path : List PrimVal
  records : List BinRecord
  next_sym : Nat
deriving DecidableEq

/-- Modelled from the spec: add_binop returns a fresh Abstract whose bytes
    are linked by the op to the inputs (call sites guard concreteness). -/
def CStore.add_binop_constraint (cs : CStore) (op : BinOp) (l r : PrimVal) (k : PrimValKind) :
    PrimVal × CStore :=
  let sb := (List.range 8).map (fun i => SByte.abstractSb (cs.next_sym + i))
  (.abstractPv sb,
   { cs with records := ⟨op, l, r, k, sb⟩ :: cs.records, next_sym := cs.next_sym + 8 })

/-- The empty constraint store. -/
def cs0 : CStore := ⟨[], [], 0⟩

/-- Allocation kinds needed by the claims. -/
inductive AllocKind where
  | heap
  | staticKind
deriving DecidableEq

/-- Allocation metadata tracked by the allocation table. -/
structure AllocMeta where
  kind : AllocKind
  size : Nat
  packed : Bool
deriving DecidableEq

/-- The allocation table of the memory manager, as an association list from
    allocation id to metadata. -/
def MemA : Type := List (Nat × AllocMeta)

instance : DecidableEq MemA := inferInstanceAs (DecidableEq (List (Nat × AllocMeta)))

def MemA.lookup : MemA → Nat → Option AllocMeta
  | [], _ => none
  | kv :: rest, id => if kv.1 = id then some kv.2 else MemA.lookup rest id

def MemA.remove : MemA → Nat → MemA
  | [], _ => []
  | kv :: rest, id => if kv.1 = id then MemA.remove rest id else kv :: MemA.remove rest id

def MemA.kind_lookup (m : MemA) (id : Nat) : Option AllocKind :=
  (MemA.lookup m id).map AllocMeta.kind

def MemA.set_kind : MemA → Nat → AllocKind → MemA
  | [], _, _ => []
  | kv :: rest, id, k =>
    (if kv.1 = id then (kv.1, { kv.2 with kind := k }) else kv) :: MemA.set_kind rest id k

def MemA.set_packed : MemA → Nat → MemA
  | [], _ => []
  | kv :: rest, id =>
    (if kv.1 = id then (kv.1, { kv.2 with packed := true }) else kv) :: MemA.set_packed rest id

/-- Modelled from the spec: deallocate fails on non-zero offset, on static
    allocations (DeallocatedStaticMemory), and on already-freed allocations
    (memory.rs is not in the snapshot). -/
def MemA.deallocate (m : MemA) (p : Pointer) : RRes MemA :=
  if p.offset ≠ .concrete 0 then .err .InvalidMemoryAccess
  else
    match MemA.lookup m p.alloc_id with
    | none => .err .DanglingPointerDeref
    | some meta =>
      match meta.kind with
      | .staticKind => .err .DeallocatedStaticMemory
      | .heap => .ok (MemA.remove m p.alloc_id)

/-- Modelled from the spec: leak_report counts the still-live heap
    allocations. -/
def MemA.leak_report (m : MemA) : Nat :=
  (m.filter (fun kv => decide (kv.2.kind = .heap))).length

/-! Embedding of operator.rs. -/

/-- Modelled from the spec: signed_offset on a concrete pointer offset wraps
    at 64 bits (memory.rs is not in the snapshot); symbolic offsets are
    handled elsewhere and left unchanged here. -/
def Pointer.signed_offset (p : Pointer) (d : Int) : Pointer :=
  match p.offset with
  | .concrete o => ⟨p.alloc_id, .concrete (((o : Int) + d).emod (2 ^ 64)).toNat⟩
  | _ => p

/-- pointer_offset (eval_context.rs:847): scale the element offset by the
    pointee size; an unsized pointee hits the expect (a panic). -/
def pointer_offset (p : Pointer) (pointee : Ty) (offset : Int) : RRes Pointer :=
  match pointee.type_size with
  | none => .rustPanic
  | some sz => .ok (p.signed_offset (offset * sz))

/-- Float operations are outside this embedding (the spec names
    floating-point symbolic reasoning a non-goal); they are modelled as a
    fixed uninterpreted function of the operand bit patterns.  No claim
    exercises them. -/
def float_cmp_bits (wide : Bool) (op : BinOp) (l r : Nat) : Bool := false

/-- Uninterpreted model of float arithmetic on bit patterns (see
    float_cmp_bits). -/
def float_arith_bits (wide : Bool) (op : BinOp) (l r : Nat) : Nat := 0

/-- The Shl fast path of abstract_binary_op (operator.rs:281): shift a whole
    number of symbolic bytes towards the high end of the 8-byte buffer. -/
def shl_sbytes (ab : List SByte) (nb : Nat) : List SByte :=
  (List.range 8).map (fun idx =>
    if nb ≤ idx then ab.getD (idx - nb) (.concrete 0) else .concrete 0)

/-- The unsigned Shr fast path of abstract_binary_op (operator.rs:287). -/
def shr_sbytes (ab : List SByte) (nb : Nat) : List SByte :=
  (List.range 8).map (fun idx =>
    if idx < 8 - nb then ab.getD (idx + nb) (.concrete 0) else .concrete 0)

/-- The right-hand-kind adjustment for symbolic shifts
    (operator.rs:302-317); amounts of 256 or more are unimplemented. -/
def abop_adjust_rk (lk rk : PrimValKind) (right : PrimVal) : RRes PrimValKind :=
  if rk.num_bytes = lk.num_bytes then .ok lk
  else if rk.num_bytes < lk.num_bytes then .ok lk
  else
    match right with
    | .bytes n => if n < 256 then .ok lk else .rustPanic
    | _ => .rustPanic

/-- The common tail of abstract_binary_op: mismatching kinds are
    unimplemented, otherwise the constraint layer provides the result. -/
def abop_finish (cs : CStore) (op : BinOp) (left : PrimVal) (lk : PrimValKind)
    (right : PrimVal) (rk : PrimValKind) : RRes ((PrimVal × Bool) × CStore) :=
  if lk ≠ rk then .err .Unimplemented
  else
    let (v, cs2) := cs.add_binop_constraint op left right lk
    .ok ((v, false), cs2)

/-- abstract_binary_op (operator.rs:265): symbolic operands go to the
    constraint store; shifts by a concrete multiple of 8 bits have a
    byte-shuffling fast path. -/
def abstract_binary_op (cs : CStore) (op : BinOp) (left : PrimVal) (lk : PrimValKind)
    (right : PrimVal) (rk : PrimValKind) : RRes ((PrimVal × Bool) × CStore) :=
  if op = .Shl ∨ op = .Shr then
    match left, right with
    | .abstractPv abytes, .bytes rn =>
      if rn % 8 = 0 then
        let nb := rn / 8
        if op = .Shl then .ok ((.abstractPv (shl_sbytes abytes nb), false), cs)
        else if ¬ lk.is_signed_int then
          .ok ((.abstractPv (shr_sbytes abytes nb), false), cs)
        else
          (abop_adjust_rk lk rk right).bind fun rk2 => abop_finish cs op left lk right rk2
      else (abop_adjust_rk lk rk right).bind fun rk2 => abop_finish cs op left lk right rk2
    | _, _ => (abop_adjust_rk lk rk right).bind fun rk2 => abop_finish cs op left lk right rk2
  else abop_finish cs op left lk right rk

/-- abstract_ptr_ops (operator.rs:377): pointer operations with a symbolic
    offset; different allocations are unimplemented (a panic). -/
def abstract_ptr_ops (cs : CStore) (op : BinOp) (l : Pointer) (lk : PrimValKind)
    (r : Pointer) (rk : PrimValKind) : RRes ((PrimVal × Bool) × CStore) :=
  let lop : PrimVal :=
    match l.offset with
    | .concrete n => .bytes n
    | .abstractOff s => .abstractPv s
  let rop : PrimVal :=
    match r.offset with
    | .concrete n => .bytes n
    | .abstractOff s => .abstractPv s
  if l.alloc_id ≠ r.alloc_id then .rustPanic
  else
    let (v, cs2) := cs.add_binop_constraint op lop rop .U64
    .ok ((v, false), cs2)

/-- ptr_ops (operator.rs:327): operations on two pointer operands. -/
def ptr_ops (cs : CStore) (op : BinOp) (l : Pointer) (lk : PrimValKind)
    (r : Pointer) (rk : PrimValKind) : RRes ((PrimVal × Bool) × CStore) :=
  if lk ≠ rk ∨ ¬ (lk.is_ptr ∨ lk = .from_uint_size pointer_size) then .err .Unimplemented
  else
    match l.offset, r.offset with
    | .concrete lo, .concrete ro =>
      match op with
      | .Eq => .ok ((.from_bool (decide (l = r)), false), cs)
      | .Ne => .ok ((.from_bool (decide (l ≠ r)), false), cs)
      | .Lt =>
        if l.alloc_id = r.alloc_id then .ok ((.from_bool (decide (lo < ro)), false), cs)
        else .err .InvalidPointerMath
      | .Le =>
        if l.alloc_id = r.alloc_id then .ok ((.from_bool (decide (lo ≤ ro)), false), cs)
        else .err .InvalidPointerMath
      | .Gt =>
        if l.alloc_id = r.alloc_id then .ok ((.from_bool (decide (ro < lo)), false), cs)
        else .err .InvalidPointerMath
      | .Ge =>
        if l.alloc_id = r.alloc_id then .ok ((.from_bool (decide (ro ≤ lo)), false), cs)
        else .err .InvalidPointerMath
      | .Sub =>
        if l.alloc_id = r.alloc_id then (int_arithmetic lk .Sub lo ro).map (fun x => (x, cs))
        else .err .InvalidPointerMath
      | _ => .err .ReadPointerAsBytes
    | _, _ => abstract_ptr_ops cs op l lk r rk

/-- ptr_and_bytes_ops (operator.rs:411): a pointer against plain bytes. -/
def ptr_and_bytes_ops (mem : MemA) (op : BinOp) (l : Pointer) (r : Nat) : RRes PrimVal :=
  match op with
  | .Eq => .ok (.from_bool false)
  | .Ne => .ok (.from_bool true)
  | .Lt | .Le | .Gt | .Ge => .err .InvalidPointerMath
  | .Add =>
    match l.offset with
    | .concrete lo =>
      let off := lo + r
      match MemA.lookup mem l.alloc_id with
      | none => .err .DanglingPointerDeref
      | some meta => if off < meta.size then .ok (.ptr ⟨l.alloc_id, .concrete off⟩) else .rustPanic
    | _ => .rustPanic
  | .Sub => .rustPanic
  | .BitOr | .BitAnd | .BitXor => .err .ReadPointerAsBytes
  | _ => .rustPanic

/-- The both-operands-concrete tail of binary_op (operator.rs:194-262):
    shifts first, then a kind-equality check, then the big dispatch. -/
def concrete_binop (cs : CStore) (op : BinOp) (lk rk : PrimValKind) (l r : Nat) :
    RRes ((PrimVal × Bool) × CStore) :=
  if op = .Shl then (int_shift lk true l (r % 2 ^ 32)).map (fun x => (x, cs))
  else if op = .Shr then (int_shift lk false l (r % 2 ^ 32)).map (fun x => (x, cs))
  else if lk ≠ rk then .err .Unimplemented
  else
    match op, lk with
    | .Eq, .F32 | .Ne, .F32 | .Lt, .F32 | .Le, .F32 | .Gt, .F32 | .Ge, .F32 =>
      .ok ((.from_bool (float_cmp_bits false op l r), false), cs)
    | .Eq, .F64 | .Ne, .F64 | .Lt, .F64 | .Le, .F64 | .Gt, .F64 | .Ge, .F64 =>
      .ok ((.from_bool (float_cmp_bits true op l r), false), cs)
    | .Add, .F32 | .Sub, .F32 | .Mul, .F32 | .Div, .F32 | .Rem, .F32 =>
      .ok ((.bytes (float_arith_bits false op l r), false), cs)
    | .Add, .F64 | .Sub, .F64 | .Mul, .F64 | .Div, .F64 | .Rem, .F64 =>
      .ok ((.bytes (float_arith_bits true op l r), false), cs)
    | .Eq, _ => .ok ((.from_bool (decide (l = r)), false), cs)
    | .Ne, _ => .ok ((.from_bool (decide (l ≠ r)), false), cs)
    | .Lt, k =>
      .ok ((.from_bool (if k.is_signed_int then decide (toSigned 128 l < toSigned 128 r)
                        else decide (l < r)), false), cs)
    | .Le, k =>
      .ok ((.from_bool (if k.is_signed_int then decide (toSigned 128 l ≤ toSigned 128 r)
                        else decide (l ≤ r)), false), cs)
    | .Gt, k =>
      .ok ((.from_bool (if k.is_signed_int then decide (toSigned 128 r < toSigned 128 l)
                        else decide (r < l)), false), cs)
    | .Ge, k =>
      .ok ((.from_bool (if k.is_signed_int then decide (toSigned 128 r ≤ toSigned 128 l)
                        else decide (r ≤ l)), false), cs)
    | .BitOr, _ => .ok ((.bytes (l ||| r), false), cs)
    | .BitAnd, _ => .ok ((.bytes (l &&& r), false), cs)
    | .BitXor, _ => .ok ((.bytes (l ^^^ r), false), cs)
    | .Add, k =>
      if k.is_int then (int_arithmetic k .Add l r).map (fun x => (x, cs))
      else .err .Unimplemented
    | .Sub, k =>
      if k.is_int then (int_arithmetic k .Sub l r).map (fun x => (x, cs))
      else .err .Unimplemented
    | .Mul, k =>
      if k.is_int then (int_arithmetic k .Mul l r).map (fun x => (x, cs))
      else .err .Unimplemented
    | .Div, k =>
      if k.is_int then (int_arithmetic k .Div l r).map (fun x => (x, cs))
      else .err .Unimplemented
    | .Rem, k =>
      if k.is_int then (int_arithmetic k .Rem l r).map (fun x => (x, cs))
      else .err .Unimplemented
    | _, _ => .err .Unimplemented

/-- binary_op (operator.rs:137): normalise, compute the operand kinds, handle
    Offset early, then dispatch on the shapes of the two primitives. -/
def binary_op (mem : MemA) (cs : CStore) (op : BinOp) (left0 : PrimVal) (left_ty : Ty)
    (right0 : PrimVal) (right_ty : Ty) : RRes ((PrimVal × Bool) × CStore) :=
  let left := normalize_primval left0
  let right := normalize_primval right0
  match ty_to_primval_kind left_ty with
  | .err e => .err e
  | .rustPanic => .rustPanic
  | .ok left_kind =>
    match ty_to_primval_kind right_ty with
    | .err e => .err e
    | .rustPanic => .rustPanic
    | .ok right_kind =>
      if op = .Offset then
        if left_kind = .Ptr ∧ right_kind = .from_uint_size pointer_size then
          match left_ty.builtin_deref with
          | none => .rustPanic
          | some pointee =>
            (left.to_ptr).bind fun p =>
            (right.to_bytes).bind fun b =>
            (pointer_offset p pointee (toSigned 64 b)).map fun np => ((.ptr np, false), cs)
        else .rustPanic
      else
        match left, right with
        | .bytes l, .bytes r => concrete_binop cs op left_kind right_kind l r
        | .ptr lp, .ptr rp => ptr_ops cs op lp left_kind rp right_kind
        | .ptr p, .bytes b => (ptr_and_bytes_ops mem op p b).map fun v => ((v, false), cs)
        | .bytes b, .ptr p => (ptr_and_bytes_ops mem op p b).map fun v => ((v, false), cs)
        | .undef, _ => .err .ReadUndefBytes
        | _, .undef => .err .ReadUndefBytes
        | l, r => abstract_binary_op cs op l left_kind r right_kind

/-- intrinsic_with_overflow (operator.rs:35): the operands are taken already
    evaluated (binop_with_overflow evaluates them through eval_operand);
    the Value returned is what gets written to the destination. -/
def intrinsic_with_overflow (mem : MemA) (cs : CStore) (op : BinOp) (left : PrimVal)
    (left_ty : Ty) (right : PrimVal) (right_ty : Ty) : RRes (Value × CStore) :=
  (binary_op mem cs op left left_ty right right_ty).map fun x =>
    (.byValPair x.1.1 (.from_bool x.1.2), x.2)

/-- intrinsic_overflowing (operator.rs:50): writes only the wrapped value to
    the destination and reports the overflow flag to its caller. -/
def intrinsic_overflowing (mem : MemA) (cs : CStore) (op : BinOp) (left : PrimVal)
    (left_ty : Ty) (right : PrimVal) (right_ty : Ty) : RRes ((Value × Bool) × CStore) :=
  (binary_op mem cs op left left_ty right right_ty).map fun x =>
    ((.byVal x.1.1, x.1.2), x.2)

/-! Scalar-granular memory contents.  The spec describes read_primval /
    write_primval as typed scalar access; memory.rs is not in the snapshot,
    so the byte store is modelled at that scalar granularity: a map from
    (allocation id, byte offset) to the primitive stored there. -/

def SMem : Type := List ((Nat × Nat) × PrimVal)

instance : DecidableEq SMem := inferInstanceAs (DecidableEq (List ((Nat × Nat) × PrimVal)))

def SMem.read : SMem → Nat × Nat → Option PrimVal
  | [], _ => none
  | kv :: rest, k => if kv.1 = k then some kv.2 else SMem.read rest k

def SMem.write (m : SMem) (k : Nat × Nat) (v : PrimVal) : SMem := (k, v) :: m

/-- Modelled from the spec: typed scalar read (memory.rs read_primval). -/
def read_primval (m : SMem) (p : Pointer) : RRes PrimVal :=
  match p.offset with
  | .concrete o =>
    match SMem.read m (p.alloc_id, o) with
    | some v => .ok v
    | none => .err .ReadUndefBytes
  | _ => .err .Unimplemented

/-- Modelled from the spec: typed scalar write (memory.rs write_primval). -/
def write_primval_mem (m : SMem) (p : Pointer) (v : PrimVal) : RRes SMem :=
  match p.offset with
  | .concrete o => .ok (SMem.write m (p.alloc_id, o) v)
  | _ => .err .Unimplemented

/-- try_read_value (eval_context.rs:1235) at scalar granularity: a symbolic
    pointer reads as None; a primitive type reads the stored scalar;
    non-primitive types read as None. -/
def try_read_value (m : SMem) (p : Pointer) (ty : Ty) : RRes (Option Value) :=
  if ¬ p.is_concrete then .ok none
  else if (ty_to_primval_kind ty).isOk then
    (read_primval m p).map fun v => some (.byVal v)
  else .ok none

/-- read_value (eval_context.rs:1210): a failed primitive read is a bug!. -/
def read_value (m : SMem) (p : Pointer) (ty : Ty) : RRes Value :=
  (try_read_value m p ty).bind fun o =>
    match o with
    | some v => .ok v
    | none => .rustPanic

/-- Whether a code point is a valid char (std char from_u32). -/
def valid_char (n : Nat) : Bool :=
  decide (n < 1114112) && ! (decide (55296 ≤ n) && decide (n < 57344))

/-- ensure_valid_value (eval_context.rs:1199). -/
def ensure_valid_value (v : PrimVal) (ty : Ty) : RRes Unit :=
  match ty with
  | .boolTy =>
    if v.is_concrete then
      (v.to_bytes).bind fun b => if 1 < b then .err .InvalidBool else .ok ()
    else .ok ()
  | .charTy =>
    (v.to_bytes).bind fun b =>
      if valid_char (b % 2 ^ 32) then .ok () else .err .InvalidChar
  | _ => .ok ()

/-- follow_by_ref_value (eval_context.rs:961). -/
def follow_by_ref_value (m : SMem) (v : Value) (ty : Ty) : RRes Value :=
  match v with
  | .byRef p => read_value m p ty
  | other => .ok other

/-- value_to_primval (eval_context.rs:968). -/
def value_to_primval (m : SMem) (v : Value) (ty : Ty) : RRes PrimVal :=
  (follow_by_ref_value m v ty).bind fun v2 =>
    match v2 with
    | .byRef _ => .rustPanic
    | .byVal pv => (ensure_valid_value pv ty).map fun _ => pv
    | .byValPair _ _ => .rustPanic

/-- Offset a pointer by a concrete byte count (ptr.offset in the source). -/
def Pointer.offset_by (p : Pointer) (d : Nat) : Pointer :=
  match p.offset with
  | .concrete o => ⟨p.alloc_id, .concrete (o + d)⟩
  | _ => p

/-- write_pair_to_ptr (eval_context.rs:1089): unwrap single-field wrappers,
    require exactly two fields, then write each component at its field
    offset.  The single-field unwrapping loop recurses structurally. -/
def write_pair_to_ptr (m : SMem) (a b : PrimVal) (p : Pointer) : Ty → RRes SMem
  | .wrapTy t => write_pair_to_ptr m a b p t
  | ty =>
    match ty.get_field_count with
    | .err e => .err e
    | .rustPanic => .rustPanic
    | .ok n =>
      if n = 2 then
        (ty.get_field_offset 0).bind fun off0 =>
        (ty.get_field_offset 1).bind fun off1 =>
        (ty.get_field_ty 0).bind fun fty0 =>
        (ty.get_field_ty 1).bind fun fty1 =>
        match fty0.type_size, fty1.type_size with
        | some _, some _ =>
          (write_primval_mem m (p.offset_by off0) a).bind fun m2 =>
          write_primval_mem m2 (p.offset_by off1) b
        | _, _ => .rustPanic
      else .rustPanic

/-- The atomic_cxchg arm of call_intrinsic (terminator/intrinsic.rs:95-110):
    read the old value, compare it with the expected one, write the pair
    (old, comparison result) to the destination, then store the replacement
    value to the location.  The destination lvalue is taken already
    materialised as a pointer (force_allocation).  The arguments are the
    already-evaluated operand values. -/
def atomic_cxchg (m : SMem) (memA : MemA) (cs : CStore) (ptr : Pointer)
    (expect_old_val change_val : Value) (ty : Ty) (dest : Pointer) (dest_ty : Ty) :
    RRes (SMem × CStore) :=
  (value_to_primval m expect_old_val ty).bind fun expect_old =>
  (value_to_primval m change_val ty).bind fun change =>
  (read_value m ptr ty).bind fun oldv =>
  ((match oldv with
    | .byVal v => .ok v
    | .byRef _ => .rustPanic
    | .byValPair _ _ => .rustPanic : RRes PrimVal)).bind fun old =>
  (binary_op memA cs .Eq old ty expect_old ty).bind fun res =>
  (write_pair_to_ptr m old res.1.1 dest dest_ty).bind fun m2 =>
  (write_primval_mem m2 ptr change).map fun m3 => (m3, res.2)

/-! Embedding of the frame machinery of eval_context.rs. -/

/-- StackPopCleanup (eval_context.rs:117). -/
inductive StackPopCleanup where
  | markStatic (mutableFlag : Bool)
  | goto (b : Nat)
  | noneCleanup
deriving DecidableEq

/-- Where the return value of a frame lives (only the global / non-global
    distinction matters to the embedded functions). -/
inductive LvalueRef where
  | globalRl (cid : Nat)
  | nonGlobal
deriving DecidableEq

/-- A stack frame (eval_context.rs:58); the locals hold one Value per MIR
    local except the return slot. -/
structure FrameP where
  mir_local_decls : Nat
  return_to_block : StackPopCleanup
  return_lvalue : LvalueRef
  locals : List Value
  block : Nat
  stmt : Nat
deriving DecidableEq

/-- A cached global (lvalue.rs Global; the fields used by pop_stack_frame). -/
structure GlobalS where
  value : Value
  initialized : Bool
  mutableFlag : Bool
deriving DecidableEq

/-- The evaluator state components touched by the frame operations. -/
structure EvalCtxS where
  stack : List FrameP
  stack_limit : Nat
  mem : MemA
  globals : List (Nat × GlobalS)
deriving DecidableEq

def lookup_global : List (Nat × GlobalS) → Nat → Option GlobalS
  | [], _ => none
  | kv :: rest, id => if kv.1 = id then some kv.2 else lookup_global rest id

def set_global : List (Nat × GlobalS) → Nat → GlobalS → List (Nat × GlobalS)
  | [], _, _ => []
  | kv :: rest, id, g => (if kv.1 = id then (kv.1, g) else kv) :: set_global rest id g

/-- push_stack_frame (eval_context.rs:288): the new frame, with one
    Undef-initialised local slot per MIR local except the return slot, is
    appended to the stack before the depth check, so the limit error leaves
    the frame in place. -/
def push_stack_frame (ecx : EvalCtxS) (mir_local_decls : Nat)
    (return_lvalue : LvalueRef) (return_to_block : StackPopCleanup) :
    EvalCtxS × RRes Unit :=
  let locals := List.replicate (mir_local_decls - 1) (Value.byVal .undef)
  let frame : FrameP :=
    { mir_local_decls := mir_local_decls
      return_to_block := return_to_block
      return_lvalue := return_lvalue
      locals := locals
      block := 0
      stmt := 0 }
  let ecx2 := { ecx with stack := ecx.stack ++ [frame] }
  if ecx2.stack.length > ecx2.stack_limit then (ecx2, .err .StackFrameLimitReached)
  else (ecx2, .ok ())

/-- Modelled from the spec: goto_block redirects the PC of the innermost
    frame to the start of the target block (step.rs is not in the snapshot). -/
def EvalCtxS.goto_block (st : EvalCtxS) (b : Nat) : RRes EvalCtxS :=
  match st.stack.getLast? with
  | none => .rustPanic
  | some f =>
    .ok { st with stack := st.stack.dropLast ++ [{ f with block := b, stmt := 0 }] }

/-- Modelled from the spec: mark_static_initalized seals an allocation as
    static (memory.rs is not in the snapshot; its failure modes are not
    exercised by the claims). -/
def mark_static_initalized (m : MemA) (id : Nat) (mutableFlag : Bool) : RRes MemA :=
  match MemA.lookup m id with
  | none => .err .DanglingPointerDeref
  | some _ => .ok (MemA.set_kind m id .staticKind)

/-- Modelled from the spec: mark_inner_allocation (memory.rs). -/
def mark_inner_allocation (m : MemA) (id : Nat) (mutableFlag : Bool) : RRes MemA :=
  match MemA.lookup m id with
  | none => .err .DanglingPointerDeref
  | some _ => .ok (MemA.set_kind m id .staticKind)

/-- The MarkStatic walk over a global value (eval_context.rs:327-339). -/
def mark_global_value (m : MemA) (v : Value) (mutableFlag : Bool) : RRes MemA :=
  match v with
  | .byRef p => mark_static_initalized m p.alloc_id mutableFlag
  | .byVal pv =>
    match pv with
    | .ptr p => mark_inner_allocation m p.alloc_id mutableFlag
    | _ => .ok m
  | .byValPair a b =>
    (match a with
     | .ptr p => mark_inner_allocation m p.alloc_id mutableFlag
     | _ => .ok m : RRes MemA).bind fun m2 =>
    match b with
    | .ptr p => mark_inner_allocation m2 p.alloc_id mutableFlag
    | _ => .ok m2

/-- The cleanup dispatch of pop_stack_frame (eval_context.rs:323-351),
    running on the state with the frame already popped. -/
def pop_cleanup (st : EvalCtxS) (frame : FrameP) : RRes EvalCtxS :=
  match frame.return_to_block with
  | .markStatic mutableFlag =>
    match frame.return_lvalue with
    | .globalRl cid =>
      match lookup_global st.globals cid with
      | none => .rustPanic
      | some g =>
        (mark_global_value st.mem g.value mutableFlag).bind fun m2 =>
        if g.initialized then .rustPanic
        else if ¬ g.mutableFlag then .rustPanic
        else
          .ok { st with
                mem := m2
                globals := set_global st.globals cid
                  { g with initialized := true, mutableFlag := mutableFlag } }
    | .nonGlobal => .rustPanic
  | .goto target => st.goto_block target
  | .noneCleanup => .ok st

/-- The local-teardown loop of pop_stack_frame (eval_context.rs:352-364):
    deallocate every ByRef local; DeallocatedStaticMemory counts as success,
    any other deallocation error is returned. -/
def dealloc_locals (m : MemA) : List Value → RRes MemA
  | [] => .ok m
  | .byRef p :: rest =>
    match MemA.deallocate m p with
    | .ok m2 => dealloc_locals m2 rest
    | .err e => if e = .DeallocatedStaticMemory then dealloc_locals m rest else .err e
    | .rustPanic => .rustPanic
  | _ :: rest => dealloc_locals m rest

/-- pop_stack_frame (eval_context.rs:321): pop the innermost frame, run its
    cleanup action, then tear down its locals. -/
def pop_stack_frame (st : EvalCtxS) : RRes EvalCtxS :=
  match st.stack.getLast? with
  | none => .rustPanic
  | some frame =>
    (pop_cleanup { st with stack := st.stack.dropLast } frame).bind fun st2 =>
    (dealloc_locals st2.mem frame.locals).map fun m2 => { st2 with mem := m2 }

/-! Embedding of the branching executor (executor.rs). -/

/-- The executor-visible portion of one queued evaluator state: the PC of
    the innermost frame, the accumulated path constraints (constraints are
    opaque to the executor, modelled by ids), and an opaque payload standing
    for the rest of the cloned state. -/
structure ExecSt where
  block : Nat
  stmt : Nat
  constraints : List Nat
  payload : Nat
deriving DecidableEq

/-- What step() (step.rs, not in the snapshot) returns, per the spec:
    continue in place, fork with a non-empty successor list, halt, or fail. -/
inductive StepResult where
  | contR
  | branchR (bs : List (Nat × List Nat))
  | haltR
  | errR (e : EvalError)
deriving DecidableEq

/-- Modelled from the spec: push_constraint records a path predicate in
    order (constraints.rs is not in the snapshot). -/
def ExecSt.push_constraint (s : ExecSt) (c : Nat) : ExecSt :=
  { s with constraints := s.constraints ++ [c] }

/-- Modelled from the spec: goto_block redirects the PC to the start of the
    target block. -/
def ExecSt.goto_block (s : ExecSt) (b : Nat) : ExecSt :=
  { s with block := b, stmt := 0 }

/-- The successor-processing loop of Executor::eval_main
    (executor.rs:99-106): one clone of the popped state per successor; for
    each constraint of the successor the clone pushes the constraint and
    jumps to the target block.  Note the jump happens inside the
    per-constraint loop, exactly as in the source. -/
def process_branches (ecx : ExecSt) (bs : List (Nat × List Nat)) : List ExecSt :=
  bs.map (fun br => br.2.foldl (fun cx c => (cx.push_constraint c).goto_block br.1) ecx)

/-- The observable events of the executor loop: a state halting cleanly, a
    state failing with a recorded error, or the executor itself panicking on
    an empty successor list. -/
inductive ExecEvent where
  | doneE (s : ExecSt)
  | erroredE (s : ExecSt) (e : EvalError)
  | panickedE
deriving DecidableEq

def ExecEvent.state? : ExecEvent → Option ExecSt
  | .doneE s => some s
  | .erroredE s _ => some s
  | .panickedE => none

/-- The work-queue loop of Executor::eval_main (executor.rs:89-124): pop the
    front state, step it, re-enqueue / fork / record, and continue with the
    rest of the queue.  The fuel argument only bounds the recursion (the
    source loop runs unboundedly); every theorem supplies enough fuel. -/
def exec_run (step : ExecSt → StepResult) : Nat → List ExecSt → List ExecEvent
  | _, [] => []
  | 0, _ :: _ => []
  | n + 1, cx :: q =>
    match step cx with
    | .contR => exec_run step n (q ++ [cx])
    | .branchR [] => [.panickedE]
    | .branchR bs => exec_run step n (q ++ process_branches cx bs)
    | .haltR => .doneE cx :: exec_run step n q
    | .errR e => .erroredE cx e :: exec_run step n q

/-- The entry signature of the guest program, as eval_main reads it off the
    MIR: the return type, the argument count, and the type of the first
    argument when there is one. -/
structure MirSig where
  return_ty : Ty
  arg_count : Nat
  arg1_ty : Ty
deriving DecidableEq

/-- How eval_main can end before reaching the work loop, or run it. -/
inductive MainOutcome (α : Type) where
  | sigErr
  | panickedArgTy
  | ran (a : α)
deriving DecidableEq

def Ty.is_nil : Ty → Bool
  | .unitTy => true
  | _ => false

/-- The entry validation of Executor::eval_main (executor.rs:45-76): a
    non-unit return type or more than one argument is rejected with a
    reported error; a single argument that is not a reference to a u8 slice
    panics.  Only after validation does the run parameter (frame setup plus
    the work loop, and with it the first step) execute. -/
def eval_main {α : Type} (sig : MirSig) (run : Unit → α) : MainOutcome α :=
  if ¬ sig.return_ty.is_nil ∨ 1 < sig.arg_count then .sigErr
  else if sig.arg_count = 1 then
    if sig.arg1_ty = .refTy (.sliceTy .u8Ty) then .ran (run ())
    else .panickedArgTy
  else .ran (run ())

/-- An entry signature the source accepts: unit return and either no
    arguments or exactly one argument of type reference-to-u8-slice. -/
def MirSig.good_shape (sig : MirSig) : Prop :=
  sig.return_ty = .unitTy ∧
    (sig.arg_count = 0 ∨ (sig.arg_count = 1 ∧ sig.arg1_ty = .refTy (.sliceTy .u8Ty)))

instance (sig : MirSig) : Decidable sig.good_shape := by
  unfold MirSig.good_shape
  infer_instance

/-! Embedding of rvalue assignment, in particular the Aggregate arms of
    eval_rvalue_into_lvalue and assign_fields (eval_context.rs). -/

/-- The lvalue forms reached by aggregate assignment: a local of the current
    frame (with an optional field projection carrying the field type), a
    plain pointer, or a pointer with a DowncastVariant extra.  Globals are
    not modelled; no claim evaluates an aggregate into a global. -/
inductive Lv where
  | localVar (idx : Nat) (field : Option (Nat × Ty))
  | ptrTo (p : Pointer)
  | ptrDowncast (p : Pointer) (variant : Nat)
deriving DecidableEq

def Lv.to_ptr_and_extra : Lv → RRes (Pointer × Option Nat)
  | .ptrTo p => .ok (p, none)
  | .ptrDowncast p v => .ok (p, some v)
  | .localVar _ _ => .rustPanic

def Lv.to_ptr : Lv → RRes Pointer
  | .ptrTo p => .ok p
  | _ => .rustPanic

/-- The evaluator state components touched by rvalue assignment. -/
structure AggSt where
  smem : SMem
  mem : MemA
  next_alloc : Nat
  locals : List Value
  local_tys : List Ty
  steps : Nat
deriving DecidableEq

/-- Modelled from the spec: a fresh heap allocation with a monotonically
    increasing id (memory.rs allocate; alignment is not modelled). -/
def AggSt.allocate (st : AggSt) (size : Nat) : Pointer × AggSt :=
  (⟨st.next_alloc, .concrete 0⟩,
   { st with
     mem := (st.next_alloc, ⟨.heap, size, false⟩) :: st.mem
     next_alloc := st.next_alloc + 1 })

/-- alloc_ptr (eval_context.rs:160): allocate room for a sized type; an
    unsized type hits the expect (a panic). -/
def alloc_ptr (st : AggSt) (ty : Ty) : RRes (Pointer × AggSt) :=
  match ty.type_size with
  | none => .rustPanic
  | some sz => .ok (st.allocate sz)

/-- Modelled from the spec: bytewise copy, here at the scalar granularity of
    the memory model (memory.rs copy). -/
def SMem.copy_scalar (m : SMem) (src dst : Pointer) : RRes SMem :=
  match src.offset, dst.offset with
  | .concrete so, .concrete dof =>
    match SMem.read m (src.alloc_id, so) with
    | some v => .ok (SMem.write m (dst.alloc_id, dof) v)
    | none => .ok m
  | _, _ => .err .Unimplemented

/-- write_value_to_ptr (eval_context.rs:1073). -/
def write_value_to_ptr (st : AggSt) (v : Value) (dest : Pointer) (dest_ty : Ty) :
    RRes AggSt :=
  match v with
  | .byRef p => (SMem.copy_scalar st.smem p dest).map fun sm => { st with smem := sm }
  | .byVal pv =>
    match dest_ty.type_size with
    | none => .rustPanic
    | some _ => (write_primval_mem st.smem dest pv).map fun sm => { st with smem := sm }
  | .byValPair a b =>
    (write_pair_to_ptr st.smem a b dest dest_ty).map fun sm => { st with smem := sm }

/-- Frame::get_local (eval_context.rs:1500) on the current frame. -/
def agg_get_local (st : AggSt) (idx : Nat) (field : Option Nat) : RRes Value :=
  match st.locals.get? idx with
  | none => .rustPanic
  | some v =>
    match field with
    | none => .ok v
    | some f =>
      match v with
      | .byRef _ => .rustPanic
      | .byVal pv => if f = 0 then .ok (.byVal pv) else .rustPanic
      | .byValPair a b =>
        if f = 0 then .ok (.byVal a)
        else if f = 1 then .ok (.byVal b)
        else .rustPanic

/-- Frame::set_local (eval_context.rs:1522) on the current frame. -/
def agg_set_local (st : AggSt) (idx : Nat) (field : Option Nat) (v : Value) : RRes AggSt :=
  match st.locals.get? idx with
  | none => .rustPanic
  | some old =>
    match field with
    | none => .ok { st with locals := st.locals.set idx v }
    | some f =>
      match old with
      | .byRef _ => .rustPanic
      | .byVal _ =>
        if f = 0 then .ok { st with locals := st.locals.set idx v } else .rustPanic
      | .byValPair a b =>
        match v with
        | .byVal prim =>
          if f = 0 then .ok { st with locals := st.locals.set idx (.byValPair prim b) }
          else if f = 1 then .ok { st with locals := st.locals.set idx (.byValPair a prim) }
          else .rustPanic
        | _ => .rustPanic

/-- write_value_possibly_by_val (eval_context.rs:1029). -/
def write_value_possibly_by_val (st : AggSt) (src : Value)
    (write_dest : AggSt → Value → RRes AggSt) (old : Value) (dest_ty : Ty) : RRes AggSt :=
  match old with
  | .byRef dp => write_value_to_ptr st src dp dest_ty
  | _ =>
    match src with
    | .byRef sp =>
      match try_read_value st.smem sp dest_ty with
      | .ok (some v) => write_dest st v
      | _ =>
        (alloc_ptr st dest_ty).bind fun ps =>
        (SMem.copy_scalar ps.2.smem sp ps.1).bind fun sm =>
        write_dest { ps.2 with smem := sm } (.byRef ps.1)
    | _ => write_dest st src

/-- write_value (eval_context.rs:990); the Ptr arm asserts no extra. -/
def write_value (st : AggSt) (src : Value) (dest : Lv) (dest_ty : Ty) : RRes AggSt :=
  match dest with
  | .ptrTo p => write_value_to_ptr st src p dest_ty
  | .ptrDowncast _ _ => .rustPanic
  | .localVar idx field =>
    (agg_get_local st idx (field.map Prod.fst)).bind fun old =>
    write_value_possibly_by_val st src
      (fun s v => agg_set_local s idx (field.map Prod.fst) v) old dest_ty

/-- write_primval on an lvalue (eval_context.rs:981). -/
def write_primval_lv (st : AggSt) (dest : Lv) (v : PrimVal) (dest_ty : Ty) : RRes AggSt :=
  write_value st (.byVal v) dest dest_ty

/-- force_allocation (eval_context.rs:906) for locals and pointers. -/
def force_allocation (st : AggSt) (lv : Lv) : RRes (Lv × AggSt) :=
  match lv with
  | .localVar idx field =>
    match st.locals.get? idx with
    | none => .rustPanic
    | some (.byRef p) => if field.isSome then .rustPanic else .ok (.ptrTo p, st)
    | some val =>
      match st.local_tys.get? idx with
      | none => .rustPanic
      | some ty =>
        (alloc_ptr st ty).bind fun ps =>
        let st2 := { ps.2 with locals := ps.2.locals.set idx (.byRef ps.1) }
        (write_value_to_ptr st2 val ps.1 ty).bind fun st3 =>
        match field with
        | some (i, fty) =>
          match ty.get_field_offset i with
          | .ok off => .ok (.ptrTo (ps.1.offset_by off), st3)
          | .err e => .err e
          | .rustPanic => .rustPanic
        | none => .ok (.ptrTo ps.1, st3)
  | .ptrTo _ => .ok (lv, st)
  | .ptrDowncast _ _ => .ok (lv, st)

/-- Modelled from the spec: lvalue_field computes the location of field i
    from the layout adapter field offsets (lvalue.rs is not in the
    snapshot). -/
def lvalue_field (st : AggSt) (lv : Lv) (i : Nat) (dest_ty field_ty : Ty) :
    RRes (Lv × AggSt) :=
  match lv with
  | .localVar idx none => .ok (.localVar idx (some (i, field_ty)), st)
  | .localVar _ (some _) => .rustPanic
  | .ptrTo p =>
    match dest_ty.get_field_offset i with
    | .ok off => .ok (.ptrTo (p.offset_by off), st)
    | .err e => .err e
    | .rustPanic => .rustPanic
  | .ptrDowncast p _ =>
    match dest_ty.get_field_offset i with
    | .ok off => .ok (.ptrTo (p.offset_by off), st)
    | .err e => .err e
    | .rustPanic => .rustPanic

/-- The per-field loop of assign_fields (eval_context.rs:419-423). -/
def assign_fields_go (dest : Lv) (dest_ty : Ty) :
    AggSt → Nat → List (Value × Ty) → RRes AggSt
  | st, _, [] => .ok st
  | st, i, (v, vty) :: rest =>
    (lvalue_field st dest i dest_ty vty).bind fun fs =>
    (write_value fs.2 v fs.1 vty).bind fun st2 =>
    assign_fields_go dest dest_ty st2 (i + 1) rest

/-- assign_fields (eval_context.rs:398): a zero-sized destination type is a
    no-op; a primitive destination takes exactly one operand; otherwise each
    operand goes to its field. -/
def assign_fields (st : AggSt) (dest : Lv) (dest_ty : Ty) (ops : List (Value × Ty)) :
    RRes AggSt :=
  if dest_ty.type_size = some 0 then .ok st
  else if (ty_to_primval_kind dest_ty).isOk then
    match ops with
    | [(v, vty)] => write_value st v dest vty
    | _ => .rustPanic
  else assign_fields_go dest dest_ty st 0 ops

/-- Modelled from the spec: the per-evaluator step counter decreases and
    exhausting it fails ExecutionTimeLimitReached (step.rs not in snapshot). -/
def check_step_limit (st : AggSt) (n : Nat) : RRes AggSt :=
  if st.steps < n then .err .ExecutionTimeLimitReached
  else .ok { st with steps := st.steps - n }

/-- mark_packed on the materialised destination (the pattern at
    eval_context.rs:472 and 490); the packed flag is recorded on the
    allocation. -/
def mark_packed_dest (st : AggSt) (dest : Lv) (stride : Nat) : RRes AggSt :=
  (force_allocation st dest).bind fun fs =>
  (fs.1.to_ptr_and_extra).bind fun pe =>
  .ok { fs.2 with mem := MemA.set_packed fs.2.mem pe.1.alloc_id }

/-- assign_discr_and_fields (eval_context.rs:369). -/
def assign_discr_and_fields (st : AggSt) (dest : Lv) (dest_ty : Ty) (discr_offset : Nat)
    (ops : List (Value × Ty)) (discr_val variant discr_size : Nat) : RRes AggSt :=
  (force_allocation st dest).bind fun fs =>
  (fs.1.to_ptr).bind fun dp =>
  (write_primval_mem fs.2.smem (dp.offset_by discr_offset)
      (.bytes (discr_val % 2 ^ (8 * discr_size)))).bind fun sm =>
  assign_fields { fs.2 with smem := sm } (.ptrDowncast dp variant) dest_ty ops

/-- One variant description of the external layout adapter. -/
structure VariantL where
  offsets : List Nat
  packed : Bool
  stride : Nat
deriving DecidableEq

/-- The layout shapes dispatched on by the Aggregate arm, as reported by the
    external type/layout adapter. -/
inductive LayoutL where
  | univariant (v : VariantL)
  | arrayL
  | general (discr_size : Nat) (variants : List VariantL)
  | rawNullablePointer (nndiscr : Nat)
  | structWrappedNullablePointer (nndiscr : Nat) (nonnull : VariantL)
      (discr_offset : Nat) (discr_field_size : Nat)
  | cEnum
  | vector (count : Nat)
  | untaggedUnion
  | otherLayout
deriving DecidableEq

/-- The aggregate kind of the MIR rvalue: an ADT with its chosen variant and
    the discriminant table, or a non-ADT aggregate. -/
inductive AggKind where
  | adt (variant : Nat) (discrs : List Nat)
  | nonAdt
deriving DecidableEq

/-- The Rvalue::Aggregate arms of eval_rvalue_into_lvalue
    (eval_context.rs:463-591), including the zero-sized-type guard at line
    463 that skips everything for zsts. -/
def eval_rvalue_aggregate (st : AggSt) (dest : Lv) (dest_ty : Ty)
    (dest_layout : LayoutL) (kind : AggKind) (ops : List (Value × Ty)) : RRes AggSt :=
  if dest_ty.type_size = some 0 then .ok st
  else
    (check_step_limit st ops.length).bind fun st =>
    match dest_layout with
    | .univariant v =>
      (if v.packed then mark_packed_dest st dest v.stride else .ok st).bind fun st =>
      assign_fields st dest dest_ty ops
    | .arrayL => assign_fields st dest dest_ty ops
    | .general discr_size variants =>
      match kind with
      | .adt variant discrs =>
        match discrs.get? variant with
        | none => .rustPanic
        | some discr_val =>
          match variants.get? variant with
          | none => .rustPanic
          | some vi =>
            (if vi.packed then mark_packed_dest st dest vi.stride else .ok st).bind fun st =>
            match vi.offsets.get? 0 with
            | none => .rustPanic
            | some off0 =>
              assign_discr_and_fields st dest dest_ty off0 ops discr_val variant discr_size
      | .nonAdt => .rustPanic
    | .rawNullablePointer nndiscr =>
      match kind with
      | .adt variant _ =>
        if nndiscr = variant then
          match ops with
          | [(v, vty)] => write_value st v dest vty
          | _ => .rustPanic
        else
          (match ops with
           | [] => .ok ()
           | [(_, vty)] => if vty.type_size = some 0 then .ok () else .rustPanic
           | _ => .rustPanic : RRes Unit).bind fun _ =>
          write_primval_lv st dest (.bytes 0) dest_ty
      | .nonAdt => .rustPanic
    | .structWrappedNullablePointer nndiscr nonnull doff dsize =>
      match kind with
      | .adt variant _ =>
        (if nonnull.packed then mark_packed_dest st dest nonnull.stride else .ok st).bind fun st =>
        if nndiscr = variant then assign_fields st dest dest_ty ops
        else
          if ops.all (fun o => o.2.type_size = some 0) then
            (force_allocation st dest).bind fun fs =>
            (fs.1.to_ptr).bind fun dp =>
            (write_primval_mem fs.2.smem (dp.offset_by doff) (.bytes 0)).map fun sm =>
            { fs.2 with smem := sm }
          else .rustPanic
      | .nonAdt => .rustPanic
    | .cEnum =>
      match ops with
      | [] =>
        match kind with
        | .adt variant discrs =>
          match discrs.get? variant with
          | none => .rustPanic
          | some n => write_primval_lv st dest (.bytes n) dest_ty
        | .nonAdt => .rustPanic
      | _ => .rustPanic
    | .vector _ => assign_fields st dest dest_ty ops
    | .untaggedUnion =>
      match ops with
      | [(v, vty)] => write_value st v dest vty
      | _ => .rustPanic
    | .otherLayout => .err .Unimplemented

/-! Theorems. -/

theorem RRes.map_map {α β γ : Type} (f : α → β) (g : β → γ) (x : RRes α) :
    (x.map f).map g = x.map (fun a => g (f a)) := by
  cases x <;> rfl

theorem Ty.is_nil_iff (t : Ty) : t.is_nil = true ↔ t = .unitTy := by
  cases t <;> simp [Ty.is_nil]

/--
C1.  The claim says a successor with an empty constraint list still has its
program counter redirected to the target block before being enqueued.  In
executor.rs:100-104 the goto_block call sits inside the per-constraint loop,
so a successor whose constraint list is empty keeps the parent's program
counter: from a state at block 0 / stmt 2, the single unconditional successor
(3, []) is enqueued still at block 0, while a successor (3, [7]) is correctly
moved to block 3.
-/
theorem c1_empty_constraint_successor_keeps_old_pc :
    process_branches ⟨0, 2, [], 0⟩ [(3, [])] = [⟨0, 2, [], 0⟩]
    ∧ process_branches ⟨0, 2, [], 0⟩ [(3, [7])] = [⟨3, 0, [7], 0⟩]
    ∧ (ExecSt.mk 0 2 [] 0).block ≠ 3 := by
  decide

/--
C2.  The claim says atomic_cxchg updates the memory location exactly when
the comparison succeeds and leaves it unchanged otherwise.  In
terminator/intrinsic.rs:109 the replacement value is written
unconditionally: with the location holding Bytes 1, expected value Bytes 2
and replacement Bytes 3, the destination correctly receives the pair
(old = Bytes 1, success = Bytes 0 i.e. false), but the location ends up
holding Bytes 3 instead of staying at Bytes 1.
-/
theorem c2_cxchg_overwrites_location_despite_failed_compare :
    (atomic_cxchg [((1, 0), .bytes 1)] [(1, ⟨.heap, 1, false⟩), (2, ⟨.heap, 2, false⟩)] cs0
        ⟨1, .concrete 0⟩ (.byVal (.bytes 2)) (.byVal (.bytes 3)) .u8Ty ⟨2, .concrete 0⟩
        (.tuple2Ty .u8Ty .boolTy)).map
      (fun r => (SMem.read r.1 (1, 0), SMem.read r.1 (2, 0), SMem.read r.1 (2, 1)))
      = .ok (some (.bytes 3), some (.bytes 1), some (.bytes 0))
    ∧ PrimVal.bytes 3 ≠ PrimVal.bytes 1 := by
  decide

/--
C5.  Evaluating an Aggregate rvalue into a destination whose type has size
zero is a no-op (the guard at eval_context.rs:463-464): the state is
returned unchanged, so no allocation happens, no memory content changes and
leak_report is unchanged; and assign_fields on a zero-sized destination
type (eval_context.rs:409-412) likewise writes nothing.
-/
theorem c5_zero_sized_aggregate_is_noop (st : AggSt) (dest : Lv) (dest_ty : Ty)
    (lay : LayoutL) (k : AggKind) (ops : List (Value × Ty))
    (h : dest_ty.type_size = some 0) :
    eval_rvalue_aggregate st dest dest_ty lay k ops = .ok st
    ∧ assign_fields st dest dest_ty ops = .ok st
    ∧ ∀ st2, eval_rvalue_aggregate st dest dest_ty lay k ops = .ok st2 →
        st2.mem.leak_report = st.mem.leak_report ∧ st2.smem = st.smem ∧ st2.mem = st.mem := by
  have h1 : eval_rvalue_aggregate st dest dest_ty lay k ops = .ok st := by
    simp [eval_rvalue_aggregate, h]
  have h2 : assign_fields st dest dest_ty ops = .ok st := by
    simp [assign_fields, h]
  refine ⟨h1, h2, ?_⟩
  intro st2 h3
  rw [h1] at h3
  cases h3
  exact ⟨rfl, rfl, rfl⟩

/-- C5 witness: a unit-typed destination has size zero and every layout
    shape and operand list gives a no-op. -/
theorem c5_zero_sized_aggregate_is_noop_witness :
    eval_rvalue_aggregate ⟨[], [], 5, [], [], 9⟩ (.localVar 0 none) .unitTy .arrayL
        .nonAdt [] = .ok ⟨[], [], 5, [], [], 9⟩
    ∧ assign_fields ⟨[], [], 5, [], [], 9⟩ (.localVar 0 none) .unitTy [] =
        .ok ⟨[], [], 5, [], [], 9⟩
    ∧ ∀ st2, eval_rvalue_aggregate ⟨[], [], 5, [], [], 9⟩ (.localVar 0 none) .unitTy
        .arrayL .nonAdt [] = .ok st2 →
        st2.mem.leak_report = MemA.leak_report [] ∧ st2.smem = [] ∧ st2.mem = [] :=
  c5_zero_sized_aggregate_is_noop ⟨[], [], 5, [], [], 9⟩ (.localVar 0 none) .unitTy
    .arrayL .nonAdt [] (by decide)

/--
C7.  eval_main (executor.rs:35-87) accepts only entry functions of shape
() → () or (&[u8]) → (): any other signature either reports the
unsupported-signature error (non-unit return type or more than one
argument) or panics (a single argument that is not a &[u8]), in both cases
before the work loop - and with it the first evaluator step - runs, so the
outcome does not depend on the loop at all.
-/
theorem c7_eval_main_rejects_bad_signatures {α : Type} (sig : MirSig)
    (run run2 : Unit → α) (h : ¬ sig.good_shape) :
    (eval_main sig run = .sigErr ∨ eval_main sig run = .panickedArgTy)
    ∧ eval_main sig run = eval_main sig run2 := by
  obtain ⟨rt, cnt, a1⟩ := sig
  simp only [MirSig.good_shape] at h
  by_cases hrt : rt.is_nil
  · have hrt2 : rt = .unitTy := (Ty.is_nil_iff rt).mp hrt
    subst hrt2
    by_cases hcnt : 1 < cnt
    · constructor
      · left
        simp [eval_main, hcnt]
      · simp [eval_main, hcnt]
    · by_cases h1 : cnt = 1
      · subst h1
        by_cases ha : a1 = .refTy (.sliceTy .u8Ty)
        · exact absurd ⟨rfl, Or.inr ⟨rfl, ha⟩⟩ h
        · constructor
          · right
            simp [eval_main, Ty.is_nil, ha]
          · simp [eval_main, Ty.is_nil, ha]
      · have h0 : cnt = 0 := by omega
        exact absurd ⟨rfl, Or.inl h0⟩ h
  · constructor
    · left
      simp [eval_main, hrt]
    · simp [eval_main, hrt]

/-- C7 witness: an entry function returning i32 is rejected before the work
    loop runs. -/
theorem c7_eval_main_rejects_bad_signatures_witness :
    (eval_main (α := Nat) ⟨.i32Ty, 0, .u8Ty⟩ (fun _ => 7) = .sigErr
      ∨ eval_main (α := Nat) ⟨.i32Ty, 0, .u8Ty⟩ (fun _ => 7) = .panickedArgTy)
    ∧ eval_main (α := Nat) ⟨.i32Ty, 0, .u8Ty⟩ (fun _ => 7)
        = eval_main (α := Nat) ⟨.i32Ty, 0, .u8Ty⟩ (fun _ => 8) :=
  c7_eval_main_rejects_bad_signatures ⟨.i32Ty, 0, .u8Ty⟩ (fun _ => 7) (fun _ => 8)
    (by decide)

/--
C9.  push_stack_frame (eval_context.rs:288-319) first appends the new frame
- with one Undef local slot per MIR local except the return slot - and only
then checks the depth, failing StackFrameLimitReached exactly when the
stack depth after the push exceeds stack_limit; on that error the frame has
already been appended, so the operation is not atomic on error.
-/
theorem c9_push_stack_frame_limit_check_is_nonatomic (ecx : EvalCtxS) (n : Nat)
    (rl : LvalueRef) (rtb : StackPopCleanup) :
    (push_stack_frame ecx n rl rtb).1.stack
      = ecx.stack ++ [⟨n, rtb, rl, List.replicate (n - 1) (.byVal .undef), 0, 0⟩]
    ∧ ((push_stack_frame ecx n rl rtb).2 = .err .StackFrameLimitReached
        ↔ ecx.stack_limit < ecx.stack.length + 1)
    ∧ ((push_stack_frame ecx n rl rtb).2 = .ok ()
        ↔ ecx.stack.length + 1 ≤ ecx.stack_limit) := by
  simp only [push_stack_frame]
  by_cases hlim : ecx.stack_limit < ecx.stack.length + 1
  · simp [hlim]
  · simp [hlim]
    omega

/--
C3.  binary_op on two concrete pointers (operator.rs:327-375): with
different allocation ids the operators Lt, Le, Gt, Ge and Sub fail
InvalidPointerMath while Eq succeeds returning false and Ne succeeds
returning true; with the same allocation id the comparisons are decided by
the two offsets.
-/
theorem c3_ptr_comparisons_across_allocations (mem : MemA) (cs : CStore)
    (la ra lo ro : Nat) (hla : la ≠ 0) (hra : ra ≠ 0) (hne : la ≠ ra) :
    (binary_op mem cs .Lt (.ptr ⟨la, .concrete lo⟩) (.rawPtrTy .u8Ty)
        (.ptr ⟨ra, .concrete ro⟩) (.rawPtrTy .u8Ty) = .err .InvalidPointerMath)
    ∧ (binary_op mem cs .Le (.ptr ⟨la, .concrete lo⟩) (.rawPtrTy .u8Ty)
        (.ptr ⟨ra, .concrete ro⟩) (.rawPtrTy .u8Ty) = .err .InvalidPointerMath)
    ∧ (binary_op mem cs .Gt (.ptr ⟨la, .concrete lo⟩) (.rawPtrTy .u8Ty)
        (.ptr ⟨ra, .concrete ro⟩) (.rawPtrTy .u8Ty) = .err .InvalidPointerMath)
    ∧ (binary_op mem cs .Ge (.ptr ⟨la, .concrete lo⟩) (.rawPtrTy .u8Ty)
        (.ptr ⟨ra, .concrete ro⟩) (.rawPtrTy .u8Ty) = .err .InvalidPointerMath)
    ∧ (binary_op mem cs .Sub (.ptr ⟨la, .concrete lo⟩) (.rawPtrTy .u8Ty)
        (.ptr ⟨ra, .concrete ro⟩) (.rawPtrTy .u8Ty) = .err .InvalidPointerMath)
    ∧ (binary_op mem cs .Eq (.ptr ⟨la, .concrete lo⟩) (.rawPtrTy .u8Ty)
        (.ptr ⟨ra, .concrete ro⟩) (.rawPtrTy .u8Ty)
        = .ok ((.from_bool false, false), cs))
    ∧ (binary_op mem cs .Ne (.ptr ⟨la, .concrete lo⟩) (.rawPtrTy .u8Ty)
        (.ptr ⟨ra, .concrete ro⟩) (.rawPtrTy .u8Ty)
        = .ok ((.from_bool true, false), cs))
    ∧ (∀ a lo2 ro2 : Nat, a ≠ 0 →
        (binary_op mem cs .Lt (.ptr ⟨a, .concrete lo2⟩) (.rawPtrTy .u8Ty)
            (.ptr ⟨a, .concrete ro2⟩) (.rawPtrTy .u8Ty)
          = .ok ((.from_bool (decide (lo2 < ro2)), false), cs))
        ∧ (binary_op mem cs .Le (.ptr ⟨a, .concrete lo2⟩) (.rawPtrTy .u8Ty)
            (.ptr ⟨a, .concrete ro2⟩) (.rawPtrTy .u8Ty)
          = .ok ((.from_bool (decide (lo2 ≤ ro2)), false), cs))
        ∧ (binary_op mem cs .Gt (.ptr ⟨a, .concrete lo2⟩) (.rawPtrTy .u8Ty)
            (.ptr ⟨a, .concrete ro2⟩) (.rawPtrTy .u8Ty)
          = .ok ((.from_bool (decide (ro2 < lo2)), false), cs))
        ∧ (binary_op mem cs .Ge (.ptr ⟨a, .concrete lo2⟩) (.rawPtrTy .u8Ty)
            (.ptr ⟨a, .concrete ro2⟩) (.rawPtrTy .u8Ty)
          = .ok ((.from_bool (decide (ro2 ≤ lo2)), false), cs))
        ∧ (binary_op mem cs .Eq (.ptr ⟨a, .concrete lo2⟩) (.rawPtrTy .u8Ty)
            (.ptr ⟨a, .concrete ro2⟩) (.rawPtrTy .u8Ty)
          = .ok ((.from_bool (decide (lo2 = ro2)), false), cs))
        ∧ (binary_op mem cs .Ne (.ptr ⟨a, .concrete lo2⟩) (.rawPtrTy .u8Ty)
            (.ptr ⟨a, .concrete ro2⟩) (.rawPtrTy .u8Ty)
          = .ok ((.from_bool (decide (¬ lo2 = ro2)), false), cs))) := by
  refine ⟨?_, ?_, ?_, ?_, ?_, ?_, ?_, ?_⟩ <;>
    try (intro a lo2 ro2 ha; refine ⟨?_, ?_, ?_, ?_, ?_, ?_⟩)
  all_goals
    simp_all [binary_op, normalize_primval, Pointer.to_int, literal_alloc_id,
      ty_to_primval_kind, Ty.type_is_sized, ptr_ops, PrimValKind.is_ptr,
      PrimValKind.from_uint_size, pointer_size, Pointer.mk.injEq]

/-- C3 witness: allocations 1 and 2 with offsets 5 and 7. -/
theorem c3_ptr_comparisons_across_allocations_witness :
    (binary_op [] cs0 .Lt (.ptr ⟨1, .concrete 5⟩) (.rawPtrTy .u8Ty)
        (.ptr ⟨2, .concrete 7⟩) (.rawPtrTy .u8Ty) = .err .InvalidPointerMath)
    ∧ (binary_op [] cs0 .Le (.ptr ⟨1, .concrete 5⟩) (.rawPtrTy .u8Ty)
        (.ptr ⟨2, .concrete 7⟩) (.rawPtrTy .u8Ty) = .err .InvalidPointerMath)
    ∧ (binary_op [] cs0 .Gt (.ptr ⟨1, .concrete 5⟩) (.rawPtrTy .u8Ty)
        (.ptr ⟨2, .concrete 7⟩) (.rawPtrTy .u8Ty) = .err .InvalidPointerMath)
    ∧ (binary_op [] cs0 .Ge (.ptr ⟨1, .concrete 5⟩) (.rawPtrTy .u8Ty)
        (.ptr ⟨2, .concrete 7⟩) (.rawPtrTy .u8Ty) = .err .InvalidPointerMath)
    ∧ (binary_op [] cs0 .Sub (.ptr ⟨1, .concrete 5⟩) (.rawPtrTy .u8Ty)
        (.ptr ⟨2, .concrete 7⟩) (.rawPtrTy .u8Ty) = .err .InvalidPointerMath)
    ∧ (binary_op [] cs0 .Eq (.ptr ⟨1, .concrete 5⟩) (.rawPtrTy .u8Ty)
        (.ptr ⟨2, .concrete 7⟩) (.rawPtrTy .u8Ty) = .ok ((.from_bool false, false), cs0))
    ∧ (binary_op [] cs0 .Ne (.ptr ⟨1, .concrete 5⟩) (.rawPtrTy .u8Ty)
        (.ptr ⟨2, .concrete 7⟩) (.rawPtrTy .u8Ty) = .ok ((.from_bool true, false), cs0))
    ∧ (∀ a lo2 ro2 : Nat, a ≠ 0 →
        (binary_op [] cs0 .Lt (.ptr ⟨a, .concrete lo2⟩) (.rawPtrTy .u8Ty)
            (.ptr ⟨a, .concrete ro2⟩) (.rawPtrTy .u8Ty)
          = .ok ((.from_bool (decide (lo2 < ro2)), false), cs0))
        ∧ (binary_op [] cs0 .Le (.ptr ⟨a, .concrete lo2⟩) (.rawPtrTy .u8Ty)
            (.ptr ⟨a, .concrete ro2⟩) (.rawPtrTy .u8Ty)
          = .ok ((.from_bool (decide (lo2 ≤ ro2)), false), cs0))
        ∧ (binary_op [] cs0 .Gt (.ptr ⟨a, .concrete lo2⟩) (.rawPtrTy .u8Ty)
            (.ptr ⟨a, .concrete ro2⟩) (.rawPtrTy .u8Ty)
          = .ok ((.from_bool (decide (ro2 < lo2)), false), cs0))
        ∧ (binary_op [] cs0 .Ge (.ptr ⟨a, .concrete lo2⟩) (.rawPtrTy .u8Ty)
            (.ptr ⟨a, .concrete ro2⟩) (.rawPtrTy .u8Ty)
          = .ok ((.from_bool (decide (ro2 ≤ lo2)), false), cs0))
        ∧ (binary_op [] cs0 .Eq (.ptr ⟨a, .concrete lo2⟩) (.rawPtrTy .u8Ty)
            (.ptr ⟨a, .concrete ro2⟩) (.rawPtrTy .u8Ty)
          = .ok ((.from_bool (decide (lo2 = ro2)), false), cs0))
        ∧ (binary_op [] cs0 .Ne (.ptr ⟨a, .concrete lo2⟩) (.rawPtrTy .u8Ty)
            (.ptr ⟨a, .concrete ro2⟩) (.rawPtrTy .u8Ty)
          = .ok ((.from_bool (decide (¬ lo2 = ro2)), false), cs0))) :=
  c3_ptr_comparisons_across_allocations [] cs0 1 2 5 7 (by decide) (by decide) (by decide)

set_option maxRecDepth 10000 in
/--
C6 (amended).  For concrete integer operands the with_overflow intrinsics
write the pair (wrapped result, overflow flag) and the overflowing_*
intrinsics write only the wrapped value (operator.rs:33-61,
terminator/intrinsic.rs:36-43, 333-343); however the wrapped value is
stored as the Rust `as u128` cast of the result at the operand kind, which
sign-extends negative signed results: add_with_overflow on i32 operands
i32::MAX and 1 yields (Bytes(2^128 - 2^31), Bytes(1)) - whose low 32 bits
are 0x80000000 - with no error, rather than the zero-extended
Bytes(0x80000000) stated by the claim.
-/
theorem c6_overflow_intrinsics_write_pair_or_value (ty : Ty) (k : PrimValKind)
    (hk : ty_to_primval_kind ty = .ok k) (hint : k.is_int = true)
    (mem : MemA) (cs : CStore) (op : BinOp)
    (hop : op = .Add ∨ op = .Sub ∨ op = .Mul) (l r : Nat) :
    intrinsic_with_overflow mem cs op (.bytes l) ty (.bytes r) ty
      = (int_arithmetic k op l r).map (fun x => (Value.byValPair x.1 (.from_bool x.2), cs))
    ∧ intrinsic_overflowing mem cs op (.bytes l) ty (.bytes r) ty
      = (int_arithmetic k op l r).map (fun x => ((Value.byVal x.1, x.2), cs))
    ∧ intrinsic_with_overflow [] cs0 .Add (.bytes 2147483647) .i32Ty (.bytes 1) .i32Ty
      = .ok (.byValPair (.bytes (2 ^ 128 - 2 ^ 31)) (.bytes 1), cs0)
    ∧ ((2 ^ 128 - 2 ^ 31) % 2 ^ 32 : Nat) = 2 ^ 31 := by
  have hbo : binary_op mem cs op (.bytes l) ty (.bytes r) ty
      = (int_arithmetic k op l r).map (fun x => (x, cs)) := by
    rcases hop with rfl | rfl | rfl <;>
      cases k <;>
        simp_all [binary_op, normalize_primval, concrete_binop, PrimValKind.is_int]
  refine ⟨?_, ?_, ?_, ?_⟩
  · simp [intrinsic_with_overflow, hbo, RRes.map_map]
  · simp [intrinsic_overflowing, hbo, RRes.map_map]
  · decide
  · decide

set_option maxRecDepth 10000 in
/-- C6 witness: u8 operands 200 and 100 overflow and wrap to 44. -/
theorem c6_overflow_intrinsics_write_pair_or_value_witness :
    intrinsic_with_overflow [] cs0 .Add (.bytes 200) .u8Ty (.bytes 100) .u8Ty
      = (int_arithmetic .U8 .Add 200 100).map
          (fun x => (Value.byValPair x.1 (.from_bool x.2), cs0))
    ∧ intrinsic_overflowing [] cs0 .Add (.bytes 200) .u8Ty (.bytes 100) .u8Ty
      = (int_arithmetic .U8 .Add 200 100).map
          (fun x => ((Value.byVal x.1, x.2), cs0))
    ∧ intrinsic_with_overflow [] cs0 .Add (.bytes 2147483647) .i32Ty (.bytes 1) .i32Ty
      = .ok (.byValPair (.bytes (2 ^ 128 - 2 ^ 31)) (.bytes 1), cs0)
    ∧ ((2 ^ 128 - 2 ^ 31) % 2 ^ 32 : Nat) = 2 ^ 31 :=
  c6_overflow_intrinsics_write_pair_or_value .u8Ty .U8 rfl rfl [] cs0 .Add
    (Or.inl rfl) 200 100

set_option maxRecDepth 10000 in
/--
C6 counterexample.  The claim as stated expects add_with_overflow on i32
operands i32::MAX and 1 to put the zero-extended pair
(Bytes(0x80000000), Bytes(1)) in the destination; the code stores the
sign-extended `as u128` cast instead, so the written value differs.
-/
theorem c6_i32_example_not_zero_extended :
    intrinsic_with_overflow [] cs0 .Add (.bytes 2147483647) .i32Ty (.bytes 1) .i32Ty
      ≠ .ok (Value.byValPair (.bytes 2147483648) (.bytes 1), cs0) := by
  decide

/--
C10.  Immediately after push_stack_frame - successful or failing the depth
limit - the new frame holds one local slot per MIR local except the return
slot, each ByVal Undef (eval_context.rs:296-312); and a binary operation on
an Undef operand fails ReadUndefBytes (operator.rs:187).
-/
theorem c10_fresh_locals_undef_and_binop_read_undef
    (ecx : EvalCtxS) (n : Nat) (rl : LvalueRef) (rtb : StackPopCleanup)
    (mem : MemA) (cs : CStore) (op : BinOp) (lty rty : Ty) (lk rk : PrimValKind)
    (l r : PrimVal)
    (hlk : ty_to_primval_kind lty = .ok lk) (hrk : ty_to_primval_kind rty = .ok rk)
    (hop : op ≠ .Offset) (hu : l = .undef ∨ r = .undef) :
    ((push_stack_frame ecx n rl rtb).1.stack.getLast?
      = some ⟨n, rtb, rl, List.replicate (n - 1) (.byVal .undef), 0, 0⟩)
    ∧ (∀ v ∈ List.replicate (n - 1) (Value.byVal PrimVal.undef), v = .byVal .undef)
    ∧ binary_op mem cs op l lty r rty = .err .ReadUndefBytes := by
  refine ⟨?_, ?_, ?_⟩
  · simp only [push_stack_frame]
    split <;> exact List.getLast?_concat _
  · intro v hv
    exact List.eq_of_mem_replicate hv
  · rcases hu with rfl | rfl
    · cases r with
      | ptr p =>
        cases hto : p.to_int <;>
          simp [binary_op, normalize_primval, hlk, hrk, hop, hto]
      | bytes m => simp [binary_op, normalize_primval, hlk, hrk, hop]
      | undef => simp [binary_op, normalize_primval, hlk, hrk, hop]
      | abstractPv s => simp [binary_op, normalize_primval, hlk, hrk, hop]
    · cases l with
      | ptr p =>
        cases hto : p.to_int <;>
          simp [binary_op, normalize_primval, hlk, hrk, hop, hto]
      | bytes m => simp [binary_op, normalize_primval, hlk, hrk, hop]
      | undef => simp [binary_op, normalize_primval, hlk, hrk, hop]
      | abstractPv s => simp [binary_op, normalize_primval, hlk, hrk, hop]

/-- C10 witness: a frame with three MIR locals and an Add on an untouched
    (Undef) i32 operand. -/
theorem MemA.lookup_remove (m : MemA) (id j : Nat) :
    MemA.lookup (MemA.remove m id) j = if j = id then none else MemA.lookup m j := by
  induction m with
  | nil => simp [MemA.remove, MemA.lookup]
  | cons kv rest ih =>
    simp only [MemA.remove]
    by_cases h1 : kv.1 = id
    · rw [if_pos h1, ih]
      by_cases hj : j = id
      · simp [hj]
      · have h2 : kv.1 ≠ j := by rw [h1]; exact fun hc => hj hc.symm
        simp [hj, MemA.lookup, h2]
    · rw [if_neg h1]
      by_cases h2 : kv.1 = j
      · have hj : j ≠ id := by rw [← h2]; exact h1
        simp [MemA.lookup, h2, hj]
      · simp [MemA.lookup, h2, ih]

theorem MemA.deallocate_ok_inv (m m2 : MemA) (p : Pointer)
    (h : MemA.deallocate m p = .ok m2) : m2 = MemA.remove m p.alloc_id := by
  unfold MemA.deallocate at h
  split at h
  · simp at h
  · cases hlk : MemA.lookup m p.alloc_id with
    | none => simp [hlk] at h
    | some meta =>
      cases hk : meta.kind
      · simp [hlk, hk] at h
        exact h.symm
      · simp [hlk, hk] at h

theorem MemA.deallocate_static_inv (m : MemA) (p : Pointer)
    (h : MemA.deallocate m p = .err .DeallocatedStaticMemory) :
    MemA.kind_lookup m p.alloc_id = some .staticKind := by
  unfold MemA.deallocate at h
  split at h
  · simp at h
  · cases hlk : MemA.lookup m p.alloc_id with
    | none => simp [hlk] at h
    | some meta =>
      cases hk : meta.kind
      · simp [hlk, hk] at h
      · simp [MemA.kind_lookup, hlk, hk]

theorem dealloc_locals_preserves_dead (locals : List Value) :
    ∀ (m m2 : MemA) (id : Nat), dealloc_locals m locals = .ok m2 →
      MemA.lookup m id = none → MemA.lookup m2 id = none := by
  induction locals with
  | nil =>
    intro m m2 id h hd
    simp only [dealloc_locals] at h
    cases h
    exact hd
  | cons v rest ih =>
    intro m m2 id h hd
    cases v with
    | byRef p =>
      simp only [dealloc_locals] at h
      cases hd2 : MemA.deallocate m p with
      | ok m3 =>
        simp only [hd2] at h
        refine ih m3 m2 id h ?_
        rw [MemA.deallocate_ok_inv m m3 p hd2, MemA.lookup_remove]
        split
        · rfl
        · exact hd
      | err e =>
        simp only [hd2] at h
        by_cases he : e = .DeallocatedStaticMemory
        · rw [if_pos he] at h
          exact ih m m2 id h hd
        · rw [if_neg he] at h
          simp at h
      | rustPanic =>
        simp only [hd2] at h
        simp at h
    | byVal pv =>
      simp only [dealloc_locals] at h
      exact ih m m2 id h hd
    | byValPair a b =>
      simp only [dealloc_locals] at h
      exact ih m m2 id h hd

theorem dealloc_locals_removes_heap (locals : List Value) :
    ∀ (m m2 : MemA), dealloc_locals m locals = .ok m2 →
      ∀ q : Pointer, Value.byRef q ∈ locals →
        MemA.kind_lookup m q.alloc_id = some .heap →
        MemA.kind_lookup m2 q.alloc_id = none := by
  induction locals with
  | nil =>
    intro m m2 h q hq
    cases hq
  | cons v rest ih =>
    intro m m2 h q hq hk
    have hdead : ∀ m3 : MemA, MemA.lookup m3 q.alloc_id = none →
        dealloc_locals m3 rest = .ok m2 → MemA.kind_lookup m2 q.alloc_id = none := by
      intro m3 hnone hrest
      have := dealloc_locals_preserves_dead rest m3 m2 q.alloc_id hrest hnone
      simp [MemA.kind_lookup, this]
    rcases List.mem_cons.mp hq with hq1 | hq2
    · -- q is the local at the head
      rw [← hq1] at h
      simp only [dealloc_locals] at h
      cases hd2 : MemA.deallocate m q with
      | ok m3 =>
        simp only [hd2] at h
        refine hdead m3 ?_ h
        rw [MemA.deallocate_ok_inv m m3 q hd2, MemA.lookup_remove]
        simp
      | err e =>
        simp only [hd2] at h
        by_cases he : e = .DeallocatedStaticMemory
        · rw [he] at hd2
          rw [MemA.deallocate_static_inv m q hd2] at hk
          cases hk
        · rw [if_neg he] at h
          simp at h
      | rustPanic =>
        simp only [hd2] at h
        simp at h
    · -- q sits further down the locals
      cases v with
      | byRef p =>
        simp only [dealloc_locals] at h
        cases hd2 : MemA.deallocate m p with
        | ok m3 =>
          simp only [hd2] at h
          have hrm := MemA.deallocate_ok_inv m m3 p hd2
          by_cases hsame : q.alloc_id = p.alloc_id
          · refine hdead m3 ?_ h
            rw [hrm, MemA.lookup_remove, if_pos hsame]
          · refine ih m3 m2 h q hq2 ?_
            rw [hrm]
            simp only [MemA.kind_lookup] at hk ⊢
            rw [MemA.lookup_remove, if_neg hsame]
            exact hk
        | err e =>
          simp only [hd2] at h
          by_cases he : e = .DeallocatedStaticMemory
          · rw [if_pos he] at h
            exact ih m m2 h q hq2 hk
          · rw [if_neg he] at h
            simp at h
        | rustPanic =>
          simp only [hd2] at h
          simp at h
      | byVal pv =>
        simp only [dealloc_locals] at h
        exact ih m m2 h q hq2 hk
      | byValPair a b =>
        simp only [dealloc_locals] at h
        exact ih m m2 h q hq2 hk

/--
C4.  The local-teardown loop of pop_stack_frame (eval_context.rs:352-364):
a ByRef local whose deallocation fails DeallocatedStaticMemory (a static
pointee) is treated as success and the teardown continues; any other
deallocation error is propagated to the caller; and after a successful
teardown every ByRef local that pointed at a live heap allocation has been
deallocated.  For a plain (None-cleanup) frame, pop_stack_frame is exactly
pop-then-teardown.
-/
theorem c4_pop_frame_teardown_dealloc (m : MemA) (p : Pointer) (rest : List Value)
    (st : EvalCtxS) (frame : FrameP)
    (hst : st.stack.getLast? = some frame) (hcl : frame.return_to_block = .noneCleanup) :
    (MemA.deallocate m p = .err .DeallocatedStaticMemory →
      dealloc_locals m (Value.byRef p :: rest) = dealloc_locals m rest)
    ∧ (∀ e, e ≠ EvalError.DeallocatedStaticMemory → MemA.deallocate m p = .err e →
        dealloc_locals m (Value.byRef p :: rest) = .err e)
    ∧ (∀ (mA m2 : MemA) (locals : List Value), dealloc_locals mA locals = .ok m2 →
        ∀ q : Pointer, Value.byRef q ∈ locals →
          MemA.kind_lookup mA q.alloc_id = some .heap →
          MemA.kind_lookup m2 q.alloc_id = none)
    ∧ pop_stack_frame st
        = (dealloc_locals st.mem frame.locals).map
            (fun m2 => { st with stack := st.stack.dropLast, mem := m2 }) := by
  refine ⟨?_, ?_, ?_, ?_⟩
  · intro h
    simp [dealloc_locals, h]
  · intro e he h
    simp [dealloc_locals, h, he]
  · intro mA m2 locals h q hq hk
    exact dealloc_locals_removes_heap locals mA m2 h q hq hk
  · simp [pop_stack_frame, hst, pop_cleanup, hcl, RRes.bind]

/-- C4 witness: allocation 1 is static (its deallocation error is swallowed),
    allocation 2 is heap and gets removed, and a dangling ByRef local makes
    the teardown fail with the propagated error. -/
theorem c4_pop_frame_teardown_dealloc_witness :
    (MemA.deallocate [(1, ⟨.staticKind, 4, false⟩), (2, ⟨.heap, 4, false⟩)]
        ⟨1, .concrete 0⟩ = .err .DeallocatedStaticMemory →
      dealloc_locals [(1, ⟨.staticKind, 4, false⟩), (2, ⟨.heap, 4, false⟩)]
          (Value.byRef ⟨1, .concrete 0⟩ :: [Value.byRef ⟨2, .concrete 0⟩])
        = dealloc_locals [(1, ⟨.staticKind, 4, false⟩), (2, ⟨.heap, 4, false⟩)]
            [Value.byRef ⟨2, .concrete 0⟩])
    ∧ (∀ e, e ≠ EvalError.DeallocatedStaticMemory →
        MemA.deallocate [(1, ⟨.staticKind, 4, false⟩), (2, ⟨.heap, 4, false⟩)]
            ⟨1, .concrete 0⟩ = .err e →
        dealloc_locals [(1, ⟨.staticKind, 4, false⟩), (2, ⟨.heap, 4, false⟩)]
            (Value.byRef ⟨1, .concrete 0⟩ :: [Value.byRef ⟨2, .concrete 0⟩]) = .err e)
    ∧ (∀ (mA m2 : MemA) (locals : List Value), dealloc_locals mA locals = .ok m2 →
        ∀ q : Pointer, Value.byRef q ∈ locals →
          MemA.kind_lookup mA q.alloc_id = some .heap →
          MemA.kind_lookup m2 q.alloc_id = none)
    ∧ pop_stack_frame
          ⟨[⟨2, .noneCleanup, .nonGlobal, [Value.byRef ⟨2, .concrete 0⟩], 0, 0⟩], 9,
            [(1, ⟨.staticKind, 4, false⟩), (2, ⟨.heap, 4, false⟩)], []⟩
        = (dealloc_locals [(1, ⟨.staticKind, 4, false⟩), (2, ⟨.heap, 4, false⟩)]
              [Value.byRef ⟨2, .concrete 0⟩]).map
            (fun m2 => ⟨[], 9, m2, []⟩) :=
  c4_pop_frame_teardown_dealloc
    [(1, ⟨.staticKind, 4, false⟩), (2, ⟨.heap, 4, false⟩)] ⟨1, .concrete 0⟩
    [Value.byRef ⟨2, .concrete 0⟩]
    ⟨[⟨2, .noneCleanup, .nonGlobal, [Value.byRef ⟨2, .concrete 0⟩], 0, 0⟩], 9,
      [(1, ⟨.staticKind, 4, false⟩), (2, ⟨.heap, 4, false⟩)], []⟩
    ⟨2, .noneCleanup, .nonGlobal, [Value.byRef ⟨2, .concrete 0⟩], 0, 0⟩
    (by decide) (by decide)

theorem exec_run_processes_all (step : ExecSt → StepResult) :
    ∀ q : List ExecSt, (∀ t ∈ q, step t = .haltR ∨ ∃ e2, step t = .errR e2) →
      (exec_run step q.length q).filterMap ExecEvent.state? = q := by
  intro q
  induction q with
  | nil =>
    intro h
    simp [exec_run]
  | cons t rest ih =>
    intro h
    rcases h t (List.mem_cons_self t rest) with ht | ⟨e2, ht⟩ <;>
      simp [exec_run, ht, ExecEvent.state?,
        ih (fun u hu => h u (List.mem_cons_of_mem t hu))]

/--
C8.  The executor loop (executor.rs:89-124): when step() on the dequeued
state fails, the error is recorded as an event, the failed state is not
re-enqueued, and the loop goes on with exactly the rest of the queue; in
particular when every queued state halts or errors, all of them are still
dequeued and processed, in order.
-/
theorem c8_error_recorded_and_queue_continues (step : ExecSt → StepResult)
    (s : ExecSt) (e : EvalError) (q : List ExecSt) (n : Nat)
    (hs : step s = .errR e) :
    exec_run step (n + 1) (s :: q) = .erroredE s e :: exec_run step n q
    ∧ ((∀ t ∈ q, step t = .haltR ∨ ∃ e2, step t = .errR e2) →
        (exec_run step q.length q).filterMap ExecEvent.state? = q) := by
  constructor
  · simp [exec_run, hs]
  · intro h
    exact exec_run_processes_all step q h

/-- C8 witness: the state with payload 0 errors with Panic; the one queued
    behind it still halts and is processed. -/
theorem c8_error_recorded_and_queue_continues_witness :
    exec_run (fun st => if st.payload = 0 then .errR .PanicError else .haltR) (1 + 1)
        (⟨0, 0, [], 0⟩ :: [⟨0, 0, [], 1⟩])
      = .erroredE ⟨0, 0, [], 0⟩ .PanicError
          :: exec_run (fun st => if st.payload = 0 then .errR .PanicError else .haltR)
               1 [⟨0, 0, [], 1⟩]
    ∧ ((∀ t ∈ [(⟨0, 0, [], 1⟩ : ExecSt)],
          (fun st : ExecSt =>
            if st.payload = 0 then StepResult.errR EvalError.PanicError
            else StepResult.haltR) t = StepResult.haltR
          ∨ ∃ e2,
            (fun st : ExecSt =>
              if st.payload = 0 then StepResult.errR EvalError.PanicError
              else StepResult.haltR) t = StepResult.errR e2) →
        (exec_run
            (fun st => if st.payload = 0 then .errR .PanicError else .haltR)
            (List.length [(⟨0, 0, [], 1⟩ : ExecSt)])
            [(⟨0, 0, [], 1⟩ : ExecSt)]).filterMap ExecEvent.state?
          = [(⟨0, 0, [], 1⟩ : ExecSt)]) :=
  c8_error_recorded_and_queue_continues
    (fun st => if st.payload = 0 then .errR .PanicError else .haltR)
    ⟨0, 0, [], 0⟩ .PanicError [⟨0, 0, [], 1⟩] 1 (by decide)

theorem c10_fresh_locals_undef_and_binop_read_undef_witness :
    ((push_stack_frame ⟨[], 5, [], []⟩ 3 .nonGlobal .noneCleanup).1.stack.getLast?
      = some ⟨3, .noneCleanup, .nonGlobal, List.replicate 2 (.byVal .undef), 0, 0⟩)
    ∧ (∀ v ∈ List.replicate 2 (Value.byVal PrimVal.undef), v = .byVal .undef)
    ∧ binary_op [] cs0 .Add PrimVal.undef .i32Ty (.bytes 1) .i32Ty
        = .err .ReadUndefBytes :=
  c10_fresh_locals_undef_and_binop_read_undef ⟨[], 5, [], []⟩ 3 .nonGlobal .noneCleanup
    [] cs0 .Add .i32Ty .i32Ty .I32 .I32 .undef (.bytes 1) rfl rfl (by decide)
    (Or.inl rfl)

end Seer
